import Mathlib

/-!
Verification of the resilient TMDB API client (src/mcp_server/api_client.py)
and the tool adapters (src/mcp_server/tools.py) of the film-tv-explorer
repository, as a shallow embedding in Lean.

Modelling conventions:
* Machine time is modelled by the rationals; `await asyncio.sleep(d)` advances
  the clock by exactly `d` (the idealized scheduler).
* JSON values are modelled by the inductive `Json`; a 2xx response body is
  assumed parseable (no claim probes unparseable 2xx bodies).
* Python parameter dict values are `PyVal` (the code only ever stores `str`
  and `int` values in `params`).
* The transport is an oracle `Nat → TResp` indexed by the cumulative number
  of transport calls recorded in the `Trace`.
* Character-level fidelity of Python `repr`/`str.lower`/`int(...)` is claimed
  on the ASCII printable domain (no backslashes, no control characters);
  theorems that depend on it carry the corresponding `goodStr` hypotheses.
-/

set_option allowUnsafeReducibility true
attribute [semireducible] Rat.add Rat.sub Rat.mul Rat.inv Rat.ofScientific

/-- The character with code 39, an apostrophe (Python single quote). -/
def squote : Char := Char.ofNat 39

/-- The character with code 34 (Python double quote). -/
def dquote : Char := Char.ofNat 34

/-- The character with code 92 (a backslash). -/
def bslash : Char := Char.ofNat 92

/-- A character on which our model of Python `repr` is exact: ASCII printable
and not a backslash (Python would escape anything else). -/
def goodChar (c : Char) : Prop := 32 ≤ c.toNat ∧ c.toNat < 127 ∧ c ≠ bslash

/-- All characters of the list are `goodChar`. -/
def goodStr (s : List Char) : Prop := ∀ c ∈ s, goodChar c

instance : DecidablePred goodChar := fun c => by unfold goodChar; infer_instance

instance (s : List Char) : Decidable (goodStr s) := by unfold goodStr; infer_instance

/-- JSON values (the parsed form of provider response bodies). -/
inductive Json where
  | null : Json
  | bool (b : Bool) : Json
  | num (q : ℚ) : Json
  | str (s : String) : Json
  | arr (elems : List Json) : Json
  | obj (kvs : List (String × Json)) : Json

/-- A Python parameter value: the client only ever stores strings and ints in
the `params` dict passed to `httpx`. -/
inductive PyVal where
  | str (s : String) : PyVal
  | int (n : ℤ) : PyVal
deriving DecidableEq

/-- Decimal digits of a natural number, most significant first, written with
explicit fuel so that it is structural (fuel `n+1` always suffices). -/
def natCharsAux : ℕ → ℕ → List Char
  | 0, _ => []
  | fuel + 1, n =>
    if n < 10 then [Nat.digitChar n]
    else natCharsAux fuel (n / 10) ++ [Nat.digitChar (n % 10)]

/-- Decimal representation of a natural number (Python `str` of a nonnegative
int). -/
def natChars (n : ℕ) : List Char := natCharsAux (n + 1) n

/-- Python `str`/`repr` of an int: decimal digits with a leading minus sign
for negative values. -/
def intChars (n : ℤ) : List Char :=
  if n < 0 then Char.ofNat 45 :: natChars n.natAbs else natChars n.natAbs

/-- Escape single quotes the way Python `repr` does inside a single-quoted
string literal (the only escape needed on the `goodChar` domain). -/
def escQ : List Char → List Char
  | [] => []
  | c :: cs => (if c = squote then [bslash, squote] else [c]) ++ escQ cs

/-- Python `repr` of a string over `goodChar` characters: double-quoted when
the string contains a single quote but no double quote, otherwise
single-quoted with single quotes escaped. -/
def pyReprStr (s : List Char) : List Char :=
  if squote ∈ s ∧ dquote ∉ s then dquote :: (s ++ [dquote])
  else squote :: (escQ s ++ [squote])

/-- Python `repr` of a parameter value. -/
def pyReprVal : PyVal → List Char
  | .str s => pyReprStr s.data
  | .int n => intChars n

/-- Python `repr` of one `(key, value)` tuple of `sorted(params.items())`. -/
def pairChars (k : String) (v : PyVal) : List Char :=
  Char.ofNat 40 :: (pyReprStr k.data ++ Char.ofNat 44 :: Char.ofNat 32 ::
    (pyReprVal v ++ [Char.ofNat 41]))

/-- Join pieces with the `", "` separator, as Python does when printing a
list. -/
def joinSep : List (List Char) → List Char
  | [] => []
  | [x] => x
  | x :: y :: ys => x ++ Char.ofNat 44 :: Char.ofNat 32 :: joinSep (y :: ys)

/-- Python `str` of the list `sorted(params.items())`. -/
def listChars (ps : List (String × PyVal)) : List Char :=
  Char.ofNat 91 :: (joinSep (ps.map fun p => pairChars p.1 p.2) ++ [Char.ofNat 93])

/-- Lexicographic order on character lists by code point, the order Python
uses to compare strings. -/
def charListLE : List Char → List Char → Bool
  | [], _ => true
  | _ :: _, [] => false
  | a :: as, b :: bs => if a = b then charListLE as bs else decide (a < b)

/-- Python string comparison. -/
def keyLE (a b : String) : Bool := charListLE a.data b.data

/-- Insert one pair into a list sorted by key. -/
def insertPair (x : String × PyVal) : List (String × PyVal) → List (String × PyVal)
  | [] => [x]
  | y :: ys => if keyLE x.1 y.1 then x :: y :: ys else y :: insertPair x ys

/-- `sorted(params.items())`: Python sorts the `(key, value)` tuples
lexicographically; since dict keys are unique the order is decided by the
keys alone, which this insertion sort implements. -/
def sortParams : List (String × PyVal) → List (String × PyVal)
  | [] => []
  | x :: xs => insertPair x (sortParams xs)

/-- `TMDBClient._get_cache_key`: `f"{endpoint}:{sorted_params}"`
(api_client.py lines 58-61). -/
def getCacheKey (endpoint : String) (params : List (String × PyVal)) : String :=
  endpoint ++ ":" ++ String.mk (listChars (sortParams params))

/-- `params[key] = value` on a Python dict, viewed as an association list:
any existing binding of the key is replaced. -/
def setParam (ps : List (String × PyVal)) (k : String) (v : PyVal) :
    List (String × PyVal) :=
  ps.filter (fun p => p.1 ≠ k) ++ [(k, v)]

/-- The fingerprint `_request` actually uses: the cache key of the params
after the credential has been injected (api_client.py lines 71-76). -/
def requestKey (apiKey endpoint : String) (params : List (String × PyVal)) : String :=
  getCacheKey endpoint (setParam params "api_key" (.str apiKey))

/-- The mutable state of a `TMDBClient` instance: the response cache (a dict
mapping cache key to `(data, timestamp)`, newest binding first), the rate
window's timestamp log, and the model clock. -/
structure DispatchState where
  cache : List (String × Json × ℚ)
  requestTimes : List ℚ
  now : ℚ
deriving Inhabited

/-- Effects recorded while running `_request`: number of transport calls,
sleeps from the retry/backoff paths, sleeps from the rate limiter, and the
query parameter list passed to each transport call. -/
structure Trace where
  transportCalls : ℕ
  retrySleeps : List ℚ
  rateSleeps : List ℚ
  sentParams : List (List (String × PyVal))

/-- The all-zero trace used when a dispatch starts. -/
def Trace.empty : Trace := ⟨0, [], [], []⟩

/-- One transport attempt's result: an HTTP response (status, optional parsed
Retry-After header, parsed JSON body) or a connection-level `httpx.RequestError`. -/
inductive TResp where
  | http (status : ℕ) (retryAfter : Option ℕ) (body : Json) : TResp
  | netErr : TResp

/-- Outcome of `TMDBClient._request`. `retNone` is the implicit Python `None`
returned when the `for` loop over attempts finishes without returning or
raising (which happens when every attempt hits the inline 429 branch). -/
inductive ReqResult where
  | ok (data : Json) : ReqResult
  | retNone : ReqResult
  | errValue (msg : String) : ReqResult
  | errRateLimit : ReqResult
  | errHTTP (status : ℕ) : ReqResult
  | errTransport : ReqResult
  | errOther : ReqResult

/-- Drop logged request timestamps that are 10 or more seconds old
(api_client.py lines 45 and 54). -/
def pruneTimes (times : List ℚ) (now : ℚ) : List ℚ :=
  times.filter (fun t => now - t < 10)

/-- The oldest remaining logged timestamp (`self.request_times[0]`). -/
def oldestOf (l : List ℚ) : ℚ := l.headD 0

/-- `TMDBClient._check_rate_limit` (api_client.py lines 41-56): prune the log,
and if 40 or more timestamps remain, sleep `10 - (now - oldest)`, re-prune at
the new time, and finally append the (possibly new) `now`.  Returns the new
state together with the sleep performed, if any. -/
def checkRateLimit (st : DispatchState) : DispatchState × Option ℚ :=
  let ts := pruneTimes st.requestTimes st.now
  if 40 ≤ ts.length then
    let sleepTime := 10 - (st.now - oldestOf ts)
    if 0 < sleepTime then
      let now2 := st.now + sleepTime
      let ts2 := pruneTimes ts now2
      ({ cache := st.cache, requestTimes := ts2 ++ [now2], now := now2 }, some sleepTime)
    else ({ st with requestTimes := ts ++ [st.now] }, none)
  else ({ st with requestTimes := ts ++ [st.now] }, none)

/-- Back-to-back admissions: iterate `_check_rate_limit` with no time passing
between calls. -/
def admitN : ℕ → DispatchState → DispatchState
  | 0, st => st
  | n + 1, st => admitN n (checkRateLimit st).1

/-- The retry loop of `TMDBClient._request` (api_client.py lines 83-136),
structural on the number of attempts left (`MAX_RETRIES = 3` attempts total;
attempt `attempt` is the last one iff `attemptsLeft = 1`).

Faithfulness notes, keyed to the source:
* line 95: a 429 status is intercepted *before* `raise_for_status()`, so the
  `elif e.response.status_code == 429` arm of the `except` block
  (lines 113-121) is unreachable; the loop sleeps `int(Retry-After or
  backoff)` and `continue`s without doubling the backoff — even on the last
  attempt, after which the `for` loop ends and the function returns `None`
  (`retNone`).
* line 101: `httpx.Response.raise_for_status` raises for every non-2xx
  status, giving the 404 / retry-or-`raise` arms of the `except` block.
* lines 104-106: the response is cached only when `use_cache` is true.
Sleeps advance the clock; each transport call records the parameter list
sent (`params=params`, line 92). -/
def requestLoop (transport : ℕ → TResp) (key : String)
    (sent : List (String × PyVal)) (useCache : Bool) :
    ℕ → ℚ → DispatchState → Trace → ReqResult × DispatchState × Trace
  | 0, _, st, tr => (.retNone, st, tr)
  | n + 1, backoff, st, tr =>
    let rl := checkRateLimit st
    let st1 := rl.1
    let tr1 := { tr with rateSleeps := tr.rateSleeps ++ rl.2.toList }
    let resp := transport tr1.transportCalls
    let tr2 := { tr1 with transportCalls := tr1.transportCalls + 1,
                          sentParams := tr1.sentParams ++ [sent] }
    match resp with
    | .netErr =>
      if n = 0 then (.errTransport, st1, tr2)
      else requestLoop transport key sent useCache n (min (backoff * 2) 60)
        { st1 with now := st1.now + backoff }
        { tr2 with retrySleeps := tr2.retrySleeps ++ [backoff] }
    | .http status retryAfter body =>
      if status = 429 then
        let w : ℚ := match retryAfter with
          | some k => (k : ℚ)
          | none => ((backoff.floor : ℤ) : ℚ)
        requestLoop transport key sent useCache n backoff
          { st1 with now := st1.now + w }
          { tr2 with retrySleeps := tr2.retrySleeps ++ [w] }
      else if 200 ≤ status ∧ status < 300 then
        let st2 := if useCache then
            { st1 with cache := (key, body, st1.now) :: st1.cache } else st1
        (.ok body, st2, tr2)
      else if status = 404 then (.errValue "TITLE_NOT_FOUND", st1, tr2)
      else if n = 0 then (.errHTTP status, st1, tr2)
      else requestLoop transport key sent useCache n (min (backoff * 2) 60)
        { st1 with now := st1.now + backoff }
        { tr2 with retrySleeps := tr2.retrySleeps ++ [backoff] }

/-- Cache lookup honoring the TTL (api_client.py lines 77-81): a stale entry
is left in place but not served. `_cache_ttl = 300`. -/
def cacheLive (cache : List (String × Json × ℚ)) (key : String) (now : ℚ) :
    Option Json :=
  match cache.lookup key with
  | some (d, ts) => if now - ts < 300 then some d else none
  | none => none

/-- `TMDBClient._request` (api_client.py lines 63-136): inject the credential
into the params, compute the cache key, serve a live cache entry when
`use_cache` is set, otherwise run the retry loop with
`INITIAL_BACKOFF = 1.0`. -/
def request (apiKey : String) (transport : ℕ → TResp) (method endpoint : String)
    (params : List (String × PyVal)) (useCache : Bool)
    (st : DispatchState) (tr : Trace) : ReqResult × DispatchState × Trace :=
  let params2 := setParam params "api_key" (.str apiKey)
  let key := getCacheKey endpoint params2
  if useCache then
    match cacheLive st.cache key st.now with
    | some d => (.ok d, st, tr)
    | none => requestLoop transport key params2 useCache 3 1 st tr
  else requestLoop transport key params2 useCache 3 1 st tr

/-- `data.get(key, default)` on a parsed JSON object; `none` models the
`AttributeError` raised when `data` is not a dict. -/
def jsonGetD (d : Json) (key : String) (dflt : Json) : Option Json :=
  match d with
  | .obj kvs => some ((kvs.lookup key).getD dflt)
  | _ => none

/-- `data.get("results", [])` applied to the outcome of `_request`, as done by
`search_title`, `get_recommendations` and `discover` (api_client.py lines
155-156, 166-167, 193-194).  A non-dict body or a `None` return turns into a
raw exception (`errOther`); errors propagate. -/
def getResults (r : ReqResult) : ReqResult :=
  match r with
  | .ok d =>
    match jsonGetD d "results" (.arr []) with
    | some v => .ok v
    | none => .errOther
  | .retNone => .errOther
  | e => e

/-- `type or "movie"` in `TMDBClient.search_title` (api_client.py line 146):
Python `or` falls through on a falsy (absent or empty) type. -/
def searchType (type? : Option String) : String :=
  match type? with
  | some t => if t ≠ "" then t else "movie"
  | none => "movie"

/-- The search parameter list (api_client.py lines 149-153): `year` and
`language` are added only when truthy. -/
def searchParams (query : String) (year : Option ℤ) (language : Option String) :
    List (String × PyVal) :=
  [("query", PyVal.str query)]
    ++ (match year with
        | some y => if y ≠ 0 then [("year", PyVal.int y)] else []
        | none => [])
    ++ (match language with
        | some l => if l ≠ "" then [("language", PyVal.str l)] else []
        | none => [])

/-- `TMDBClient.search_title` (api_client.py lines 138-156): build the
endpoint from `type or "movie"`, add `year`/`language` params when truthy,
dispatch with the cache enabled, and extract `results`. -/
def clientSearchTitle (apiKey : String) (transport : ℕ → TResp) (query : String)
    (type? : Option String) (year : Option ℤ) (language : Option String)
    (st : DispatchState) (tr : Trace) : ReqResult × DispatchState × Trace :=
  let out := request apiKey transport "GET" ("/search/" ++ searchType type?)
    (searchParams query year language) true st tr
  (getResults out.1, out.2.1, out.2.2)

/-- The endpoint of `TMDBClient.get_recommendations` (api_client.py line 164). -/
def recsEndpoint (id : ℤ) (type : String) : String :=
  "/" ++ type ++ "/" ++ String.mk (intChars id) ++ "/recommendations"

/-- `TMDBClient.get_recommendations` (api_client.py lines 158-167). -/
def clientGetRecommendations (apiKey : String) (transport : ℕ → TResp)
    (id : ℤ) (type : String) (st : DispatchState) (tr : Trace) :
    ReqResult × DispatchState × Trace :=
  let out := request apiKey transport "GET" (recsEndpoint id type) [] true st tr
  (getResults out.1, out.2.1, out.2.2)

/-- Python `str.lower()` restricted to ASCII characters. -/
def pyLower (s : String) : String := String.mk (s.data.map Char.toLower)

/-- Extract `(g["name"].lower(), g["id"])` from each genre object, as the dict
comprehension in `_get_genre_ids` does (api_client.py line 205); `none`
models the exception raised when an element is not a dict with a string
`name` and an integral `id`. -/
def genrePairs : List Json → Option (List (String × ℤ))
  | [] => some []
  | .obj kvs :: rest => do
    let nameJ ← kvs.lookup "name"
    let name ← match nameJ with | .str s => some s | _ => none
    let idJ ← kvs.lookup "id"
    let gid ← match idJ with | .num q => if q.den = 1 then some q.num else none | _ => none
    let tail ← genrePairs rest
    pure ((pyLower name, gid) :: tail)
  | _ :: _ => none

/-- Lookup in a Python dict built by a comprehension: later bindings
overwrite earlier ones, so search the reversed list. -/
def dictLookup (pairs : List (String × ℤ)) (k : String) : Option ℤ :=
  pairs.reverse.lookup k

/-- `TMDBClient._get_genre_ids` (api_client.py lines 201-212): fetch the genre
catalog through the dispatcher (cached), build the case-insensitive name→id
dict and project the requested names through it, silently dropping unmatched
names.  An upstream failure or malformed catalog propagates as the exception
on the left. -/
def getGenreIds (apiKey : String) (transport : ℕ → TResp) (type : String)
    (genreNames : List String) (st : DispatchState) (tr : Trace) :
    (ReqResult ⊕ List ℤ) × DispatchState × Trace :=
  let out := request apiKey transport "GET" ("/genre/" ++ type ++ "/list") [] true st tr
  match out.1 with
  | .ok d =>
    match jsonGetD d "genres" (.arr []) with
    | some (.arr gl) =>
      match genrePairs gl with
      | some pairs =>
        (Sum.inr (genreNames.filterMap fun n => dictLookup pairs (pyLower n)),
         out.2.1, out.2.2)
      | none => (Sum.inl .errOther, out.2.1, out.2.2)
    | some _ => (Sum.inl .errOther, out.2.1, out.2.2)
    | none => (Sum.inl .errOther, out.2.1, out.2.2)
  | .retNone => (Sum.inl .errOther, out.2.1, out.2.2)
  | e => (Sum.inl e, out.2.1, out.2.2)

/-- `",".join(map(str, genre_ids))` (api_client.py line 185). -/
def joinCommaNoSpace : List (List Char) → List Char
  | [] => []
  | [x] => x
  | x :: y :: ys => x ++ Char.ofNat 44 :: joinCommaNoSpace (y :: ys)

/-- The parameter list built by `TMDBClient.discover` (api_client.py lines
180-191), resolving genre names first when the `genre` argument is truthy.
Returns the params together with the state/trace after the optional genre
catalog call, or the propagated exception. -/
def discoverParams (apiKey : String) (transport : ℕ → TResp) (type : String)
    (genre : Option (List String)) (year : Option ℤ) (language : Option String)
    (sortBy : Option String) (st : DispatchState) (tr : Trace) :
    (ReqResult ⊕ List (String × PyVal)) × DispatchState × Trace :=
  let afterGenre : (ReqResult ⊕ List (String × PyVal)) × DispatchState × Trace :=
    match genre with
    | some gl =>
      if gl ≠ [] then
        match getGenreIds apiKey transport type gl st tr with
        | (Sum.inr ids, st', tr') =>
          if ids ≠ [] then
            (Sum.inr [("with_genres",
               PyVal.str (String.mk (joinCommaNoSpace (ids.map intChars))))], st', tr')
          else (Sum.inr [], st', tr')
        | (Sum.inl e, st', tr') => (Sum.inl e, st', tr')
      else (Sum.inr [], st, tr)
    | none => (Sum.inr [], st, tr)
  match afterGenre with
  | (Sum.inl e, st', tr') => (Sum.inl e, st', tr')
  | (Sum.inr ps, st', tr') =>
    let ps2 := ps ++ (match year with
      | some y => if y ≠ 0 then
          [((if type = "movie" then "primary_release_year" else "first_air_date_year"),
            PyVal.int y)] else []
      | none => [])
    let ps3 := ps2 ++ (match language with
      | some l => if l ≠ "" then [("with_original_language", PyVal.str l)] else []
      | none => [])
    let ps4 := ps3 ++ (match sortBy with
      | some s => if s ≠ "" then [("sort_by", PyVal.str (s ++ ".desc"))] else []
      | none => [])
    (Sum.inr ps4, st', tr')

/-- `TMDBClient.discover` (api_client.py lines 169-194): build the filter
params (possibly resolving genres through a prior dispatcher call), dispatch
`/discover/{type}` and extract `results`. -/
def clientDiscover (apiKey : String) (transport : ℕ → TResp) (type : String)
    (genre : Option (List String)) (year : Option ℤ) (language : Option String)
    (sortBy : Option String) (st : DispatchState) (tr : Trace) :
    ReqResult × DispatchState × Trace :=
  match discoverParams apiKey transport type genre year language sortBy st tr with
  | (Sum.inl e, st', tr') => (e, st', tr')
  | (Sum.inr ps, st', tr') =>
    let out := request apiKey transport "GET" ("/discover/" ++ type) ps true st' tr'
    (getResults out.1, out.2.1, out.2.2)

/-- How the `search_title` tool adapter surfaces an exception coming out of
the client (tools.py lines 104-112): a `ValueError` whose text is exactly
`TITLE_NOT_FOUND` is re-raised unchanged; any other `ValueError` is wrapped
as `Invalid arguments: ...`; `RateLimitError` is re-raised; any other
exception is wrapped as a generic `API error: ...` `ValueError` (the wrapped
messages interpolate `str(e)`, which we keep schematic since no claim
depends on their text). -/
inductive Surfaced where
  | success (data : Json) : Surfaced
  | valueError (msg : String) : Surfaced
  | rateLimited : Surfaced

/-- The exception mapping of the `search_title` tool adapter. -/
def surfaceSearchError : ReqResult → Surfaced
  | .ok d => .success d
  | .errValue m =>
    if m = "TITLE_NOT_FOUND" then .valueError m
    else .valueError ("Invalid arguments: " ++ m)
  | .errRateLimit => .rateLimited
  | .errHTTP _ => .valueError "API error: <upstream status error>"
  | .errTransport => .valueError "API error: <transport error>"
  | .errOther => .valueError "API error: <exception>"
  | .retNone => .valueError "API error: <exception>"

/-- `", ".join(strs)` on Lean strings (Python string join). -/
def joinComma : List String → String
  | [] => ""
  | [x] => x
  | x :: y :: ys => x ++ ", " ++ joinComma (y :: ys)

/-- A genre object of the source title's details: `{"id": ..., "name": ...}`. -/
structure GenreObj where
  id : ℤ
  name : String
deriving DecidableEq

/-- `details.get("title") or details.get("name", "Unknown")` (tools.py lines
121, 151, 205): Python `or` falls through on a falsy (absent or empty)
title. -/
def origTitleOf (title name : Option String) : String :=
  if title.getD "" ≠ "" then title.getD "" else name.getD "Unknown"

/-- The per-candidate `reason` computation of the `get_recommendations` tool
adapter (tools.py lines 132-147), over the extracted data: the source
title's display name, its genre objects (`details["genres"]`), the
candidate's `genre_ids`, and the candidate's `vote_average` (already
defaulted to 0 by `r.get("vote_average", 0)`).

The Python sets are modelled by list membership: `common_genre_ids =
set(original_ids) & set(candidate_ids)` as a filter, and the name list
iterates the source's genre objects in order, as the comprehension does. -/
def reasonFor (originalTitle : String) (origGenres : List GenreObj)
    (candGenreIds : List ℤ) (voteAverage : ℚ) : String :=
  let originalGenreIds := origGenres.map GenreObj.id
  let commonGenreIds := originalGenreIds.filter (fun i => i ∈ candGenreIds)
  let parts1 : List String :=
    if commonGenreIds ≠ [] then
      let commonGenreNames :=
        (origGenres.filter (fun g => g.id ∈ commonGenreIds)).map GenreObj.name
      if commonGenreNames ≠ [] then
        ["shared " ++ joinComma (commonGenreNames.take 2) ++ " genres"]
      else []
    else []
  let parts := parts1 ++ (if (75 : ℚ) / 10 ≤ voteAverage then ["highly rated"] else [])
  "Similar to " ++ originalTitle ++
    (if parts ≠ [] then " (" ++ joinComma parts ++ ")" else "")

/-- Validity of a run of ASCII digits possibly containing single underscores
between digits, after the first digit (Python int literal grouping). -/
def digitsTail : List Char → Bool
  | [] => true
  | c :: rest =>
    if c = Char.ofNat 95 then
      match rest with
      | [] => false
      | d :: rest2 => d.isDigit && digitsTail rest2
    else c.isDigit && digitsTail rest

/-- A nonempty digit run with optional underscore grouping. -/
def digitsRun : List Char → Bool
  | [] => false
  | c :: rest => c.isDigit && digitsTail rest

/-- Numeric value of a digit run (underscores skipped). -/
def digitsVal (cs : List Char) : ℕ :=
  (cs.filter (fun c => c ≠ Char.ofNat 95)).foldl (fun a c => a * 10 + (c.toNat - 48)) 0

/-- Python `int(s)` on an ASCII string: strip spaces/tabs/newlines, accept an
optional single sign followed by a digit run (with underscore grouping);
`none` models the `ValueError` raised otherwise. -/
def pyIntOfChars (cs : List Char) : Option ℤ :=
  let isSpace : Char → Bool := fun c =>
    c = Char.ofNat 32 || c = Char.ofNat 9 || c = Char.ofNat 10 || c = Char.ofNat 13
  let t := (cs.dropWhile isSpace).reverse.dropWhile isSpace |>.reverse
  match t with
  | [] => none
  | c :: rest =>
    if c = Char.ofNat 45 then
      if digitsRun rest then some (-(digitsVal rest : ℤ)) else none
    else if c = Char.ofNat 43 then
      if digitsRun rest then some (digitsVal rest : ℤ) else none
    else if digitsRun t then some (digitsVal t : ℤ) else none

/-- A provider result item as consumed by `format_title_result`, with each
field either absent (or JSON null, which `.get` also yields) or present with
its expected type. -/
structure TitleItem where
  id : Option ℤ
  title : Option String
  name : Option String
  releaseDate : Option String
  firstAirDate : Option String
  voteAverage : Option ℚ
  overview : Option String
  posterPath : Option String

/-- The normalized title record returned by `format_title_result`. -/
structure NormalizedTitle where
  id : ℤ
  title : String
  type : String
  year : Option ℤ
  rating : ℚ
  overview : String
  posterPath : Option String
deriving DecidableEq

/-- The date string `format_title_result` derives: `result.get("release_date")
or result.get("first_air_date", "")` (tools.py line 73). -/
def dateOf (releaseDate firstAirDate : Option String) : String :=
  if releaseDate.getD "" ≠ "" then releaseDate.getD "" else firstAirDate.getD ""

/-- `format_title_result` (tools.py lines 71-84).  `none` models a raised
exception: the `KeyError` from `result["id"]` when the id is absent, or the
`ValueError` from `int(release_date[:4])` when the date's 4-character prefix
is not an int literal.  All other absent fields get defaults. -/
def formatTitleResult (item : TitleItem) (type : String) : Option NormalizedTitle :=
  let date := dateOf item.releaseDate item.firstAirDate
  let yearRes : Option (Option ℤ) :=
    if date ≠ "" ∧ 4 ≤ date.length then
      match pyIntOfChars (date.data.take 4) with
      | some y => some (some y)
      | none => none
    else some none
  match yearRes, item.id with
  | some yr, some i =>
    some { id := i,
           title := origTitleOf item.title item.name,
           type := type,
           year := yr,
           rating := item.voteAverage.getD 0,
           overview := item.overview.getD "",
           posterPath := item.posterPath }
  | _, _ => none


/-- The (non-strict) sortedness relation of `sortParams`. -/
def pairKeyLE (x y : String × PyVal) : Prop := keyLE x.1 y.1 = true

/-- A transport oracle answering every attempt with the same response. -/
def constTransport (r : TResp) : ℕ → TResp := fun _ => r

/-- An idle client state: empty cache, empty rate log, clock at 0. -/
def idleState : DispatchState := ⟨[], [], 0⟩

/-- Values on which the `repr` model is exact: any int, and strings of
`goodChar` characters. -/
def goodPyVal : PyVal → Prop
  | .str s => goodStr s.data
  | .int _ => True

instance : (v : PyVal) → Decidable (goodPyVal v)
  | .str s => by unfold goodPyVal; infer_instance
  | .int _ => by unfold goodPyVal; infer_instance

/-- Parameter lists on which the fingerprint model is exact. -/
def goodParams (ps : List (String × PyVal)) : Prop :=
  ∀ kv ∈ ps, goodStr kv.1.data ∧ goodPyVal kv.2

instance (ps : List (String × PyVal)) : Decidable (goodParams ps) := by
  unfold goodParams; infer_instance

/-- Value of a list of decimal digit characters. -/
def decVal (cs : List Char) : ℕ :=
  cs.foldl (fun a c => a * 10 + (c.toNat - 48)) 0

/-! ### Order lemmas for the key comparison -/

theorem charListLE_refl : ∀ as, charListLE as as = true
  | [] => rfl
  | a :: as => by simp [charListLE, charListLE_refl as]

theorem charListLE_total : ∀ as bs, charListLE as bs = true ∨ charListLE bs as = true
  | [], _ => .inl rfl
  | _ :: _, [] => .inr rfl
  | a :: as, b :: bs => by
    by_cases h : a = b
    · subst h; simpa [charListLE] using charListLE_total as bs
    · have h2 : b ≠ a := fun e => h e.symm
      rcases lt_or_gt_of_ne h with hlt | hgt
      · left; simp [charListLE, h, hlt]
      · right; simp [charListLE, h2, hgt]

theorem charListLE_antisymm : ∀ as bs, charListLE as bs = true →
    charListLE bs as = true → as = bs
  | [], [], _, _ => rfl
  | [], _ :: _, _, h2 => by simp [charListLE] at h2
  | _ :: _, [], h1, _ => by simp [charListLE] at h1
  | a :: as, b :: bs, h1, h2 => by
    by_cases h : a = b
    · subst h
      simp only [charListLE, if_pos rfl] at h1 h2
      rw [charListLE_antisymm as bs h1 h2]
    · have h2' : b ≠ a := fun e => h e.symm
      simp [charListLE, h] at h1
      simp [charListLE, h2'] at h2
      exact absurd (lt_trans h1 h2) (lt_irrefl a)

theorem charListLE_trans : ∀ as bs cs, charListLE as bs = true →
    charListLE bs cs = true → charListLE as cs = true
  | [], _, _, _, _ => rfl
  | _ :: _, [], _, h1, _ => by simp [charListLE] at h1
  | _ :: _, _ :: _, [], _, h2 => by simp [charListLE] at h2
  | a :: as, b :: bs, c :: cs, h1, h2 => by
    by_cases hab : a = b
    · subst hab
      simp only [charListLE, if_pos rfl] at h1
      by_cases hac : a = c
      · subst hac
        simp only [charListLE, if_pos rfl] at h2 ⊢
        exact charListLE_trans as bs cs h1 h2
      · simp only [charListLE, if_neg hac] at h2 ⊢
        exact h2
    · simp only [charListLE, if_neg hab, decide_eq_true_eq] at h1
      by_cases hbc : b = c
      · subst hbc
        simp [charListLE, hab, h1]
      · simp only [charListLE, if_neg hbc, decide_eq_true_eq] at h2
        have hlt : a < c := lt_trans h1 h2
        have hac : a ≠ c := ne_of_lt hlt
        simp [charListLE, hac, hlt]

theorem keyLE_antisymm {a b : String} (h1 : keyLE a b = true)
    (h2 : keyLE b a = true) : a = b := by
  cases a with
  | mk da =>
    cases b with
    | mk db => exact congrArg String.mk (charListLE_antisymm da db h1 h2)

theorem keyLE_total (a b : String) : keyLE a b = true ∨ keyLE b a = true :=
  charListLE_total a.data b.data

theorem keyLE_trans {a b c : String} (h1 : keyLE a b = true)
    (h2 : keyLE b c = true) : keyLE a c = true :=
  charListLE_trans a.data b.data c.data h1 h2

/-! ### Sorting lemmas -/


theorem insertPair_perm (x : String × PyVal) :
    ∀ l, List.Perm (insertPair x l) (x :: l) := by
  intro l
  induction l with
  | nil => exact List.Perm.refl _
  | cons y ys ih =>
    by_cases h : keyLE x.1 y.1
    · simp [insertPair, h]
    · simp only [insertPair, if_neg h]
      exact (ih.cons y).trans (List.Perm.swap x y ys)

theorem sortParams_perm : ∀ l, List.Perm (sortParams l) l
  | [] => .refl _
  | x :: xs => ((insertPair_perm x (sortParams xs)).trans
      ((sortParams_perm xs).cons x))

theorem mem_insertPair {x z : String × PyVal} {l : List (String × PyVal)}
    (h : z ∈ insertPair x l) : z = x ∨ z ∈ l := by
  have := (insertPair_perm x l).mem_iff.mp h
  simpa using this

theorem insertPair_sorted (x : String × PyVal) :
    ∀ l, l.Pairwise pairKeyLE → (insertPair x l).Pairwise pairKeyLE := by
  intro l
  induction l with
  | nil => intro _; exact List.pairwise_singleton _ _
  | cons y ys ih =>
    intro hp
    rcases List.pairwise_cons.mp hp with ⟨hy, hys⟩
    by_cases h : keyLE x.1 y.1
    · simp only [insertPair, if_pos h]
      refine List.pairwise_cons.mpr ⟨?_, hp⟩
      intro z hz
      rcases List.mem_cons.mp hz with rfl | hz
      · exact h
      · exact keyLE_trans h (hy z hz)
    · simp only [insertPair, if_neg h]
      refine List.pairwise_cons.mpr ⟨?_, ih hys⟩
      intro z hz
      rcases mem_insertPair hz with hzx | hz
      · rcases keyLE_total x.1 y.1 with h1 | h1
        · exact absurd h1 h
        · show keyLE y.1 z.1 = true
          rw [hzx]
          exact h1
      · exact hy z hz

theorem sortParams_sorted : ∀ l, (sortParams l).Pairwise pairKeyLE
  | [] => .nil
  | x :: xs => insertPair_sorted x (sortParams xs) (sortParams_sorted xs)

/-- On parameter lists with distinct keys (always true for a Python dict's
items), any two permutation-equal lists sort identically. -/
theorem sortParams_eq_of_perm {ps qs : List (String × PyVal)}
    (h : List.Perm ps qs) (hnd : (ps.map Prod.fst).Nodup) :
    sortParams ps = sortParams qs := by
  have hanti : IsAntisymm (String × PyVal) (fun a b => pairKeyLE a b ∧ a.1 ≠ b.1) := by
    constructor
    intro a b h1 h2
    exact absurd (keyLE_antisymm h1.1 h2.1) h1.2
  have hperm : List.Perm (sortParams ps) (sortParams qs) :=
    (sortParams_perm ps).trans (h.trans (sortParams_perm qs).symm)
  have hndp : (sortParams ps).Pairwise (fun a b => a.1 ≠ b.1) := by
    have : ((sortParams ps).map Prod.fst).Nodup :=
      (((sortParams_perm ps).map Prod.fst).nodup_iff).mpr hnd
    exact (List.pairwise_map.mp this).imp (fun hab => hab)
  have hndq : (sortParams qs).Pairwise (fun a b => a.1 ≠ b.1) := by
    have hq : (qs.map Prod.fst).Nodup := ((h.map Prod.fst).nodup_iff).mp hnd
    have : ((sortParams qs).map Prod.fst).Nodup :=
      (((sortParams_perm qs).map Prod.fst).nodup_iff).mpr hq
    exact (List.pairwise_map.mp this).imp (fun hab => hab)
  have hsp : (sortParams ps).Pairwise (fun a b => pairKeyLE a b ∧ a.1 ≠ b.1) :=
    (sortParams_sorted ps).and hndp
  have hsq : (sortParams qs).Pairwise (fun a b => pairKeyLE a b ∧ a.1 ≠ b.1) :=
    (sortParams_sorted qs).and hndq
  exact @List.eq_of_perm_of_sorted _ _ hanti _ _ hperm hsp hsq

set_option maxRecDepth 10000

/-! ### The rate-window tracker (claim C4) -/

theorem headD_mem {l : List ℚ} (h : l ≠ []) : l.headD 0 ∈ l := by
  cases l with
  | nil => exact absurd rfl h
  | cons a l => exact List.mem_cons_self a l

theorem oldest_in_window (st : DispatchState)
    (h : pruneTimes st.requestTimes st.now ≠ []) :
    st.now - oldestOf (pruneTimes st.requestTimes st.now) < 10 := by
  have hmem := headD_mem h
  have := List.mem_filter.mp hmem
  simpa [oldestOf] using of_decide_eq_true this.2

/-- C4: when the pruned log still holds 40 or more timestamps, admission
sleeps exactly `10 - (now - oldest)` seconds, resumes at the instant the
oldest remaining timestamp leaves the trailing 10-second window (so that the
oldest is no longer inside the window), re-prunes at the resume time and
appends the new timestamp last. -/
theorem checkRateLimit_delays_until_window (st : DispatchState)
    (h : 40 ≤ (pruneTimes st.requestTimes st.now).length) :
    (checkRateLimit st).2 =
      some (10 - (st.now - oldestOf (pruneTimes st.requestTimes st.now))) ∧
    (checkRateLimit st).1.now =
      oldestOf (pruneTimes st.requestTimes st.now) + 10 ∧
    ¬ ((checkRateLimit st).1.now - oldestOf (pruneTimes st.requestTimes st.now) < 10) ∧
    (checkRateLimit st).1.requestTimes =
      pruneTimes (pruneTimes st.requestTimes st.now) ((checkRateLimit st).1.now)
        ++ [(checkRateLimit st).1.now] := by
  have hne : pruneTimes st.requestTimes st.now ≠ [] := by
    intro he
    rw [he] at h
    simp at h
  have hwin := oldest_in_window st hne
  set oldest := oldestOf (pruneTimes st.requestTimes st.now) with holdest
  have hpos : (0 : ℚ) < 10 - (st.now - oldest) := by linarith
  have hck : checkRateLimit st =
      ({ cache := st.cache,
         requestTimes :=
           pruneTimes (pruneTimes st.requestTimes st.now) (st.now + (10 - (st.now - oldest)))
             ++ [st.now + (10 - (st.now - oldest))],
         now := st.now + (10 - (st.now - oldest)) },
       some (10 - (st.now - oldest))) := by
    rw [checkRateLimit]
    rw [if_pos h, ← holdest, if_pos hpos]
  have hnow : st.now + (10 - (st.now - oldest)) = oldest + 10 := by ring
  rw [hck]
  refine ⟨rfl, ?_, ?_, ?_⟩
  · exact hnow
  · simp only [hnow]
    intro hlt
    linarith
  · simp only [hnow]

/-- Witness for C4: after 40 back-to-back admissions starting from an idle
client at time 0, the window holds 40 timestamps and the 41st admission
sleeps exactly 10 seconds. -/
theorem checkRateLimit_delays_until_window_witness :
    40 ≤ (pruneTimes (admitN 40 ⟨[], [], 0⟩).requestTimes (admitN 40 ⟨[], [], 0⟩).now).length ∧
    (checkRateLimit (admitN 40 ⟨[], [], 0⟩)).2 = some 10 := by
  have h : 40 ≤ (pruneTimes (admitN 40 ⟨[], [], 0⟩).requestTimes
      (admitN 40 ⟨[], [], 0⟩).now).length := by decide
  refine ⟨h, ?_⟩
  rw [(checkRateLimit_delays_until_window (admitN 40 ⟨[], [], 0⟩) h).1]
  decide

/-! ### Dispatcher loop lemmas -/

theorem checkRateLimit_cache (st : DispatchState) :
    (checkRateLimit st).1.cache = st.cache := by
  simp only [checkRateLimit]
  split
  · split <;> rfl
  · rfl

/-- A successful pass through the retry loop with the cache enabled leaves a
cache entry for the fingerprint holding the returned payload, stamped with
the time of the response. -/
theorem requestLoop_ok_cache (transport : ℕ → TResp) (key : String)
    (sent : List (String × PyVal)) :
    ∀ (n : ℕ) (backoff : ℚ) (st : DispatchState) (tr : Trace) (d : Json),
    (requestLoop transport key sent true n backoff st tr).1 = .ok d →
    ((requestLoop transport key sent true n backoff st tr).2.1.cache).lookup key =
      some (d, (requestLoop transport key sent true n backoff st tr).2.1.now) := by
  intro n
  induction n with
  | zero =>
    intro backoff st tr d h
    simp [requestLoop] at h
  | succ n ih =>
    intro backoff st tr d h
    rw [requestLoop] at h ⊢
    cases htr : transport (tr.transportCalls) with
    | netErr =>
      simp only [htr] at h ⊢
      by_cases hn : n = 0
      · subst hn; simp at h
      · simp only [if_neg hn] at h ⊢
        exact ih _ _ _ d h
    | http status retryAfter body =>
      simp only [htr] at h ⊢
      by_cases h429 : status = 429
      · simp only [if_pos h429] at h ⊢
        exact ih _ _ _ d h
      · simp only [if_neg h429] at h ⊢
        by_cases h2xx : 200 ≤ status ∧ status < 300
        · simp only [if_pos h2xx] at h ⊢
          simp only [ReqResult.ok.injEq] at h
          subst h
          simp [List.lookup]
        · simp only [if_neg h2xx] at h ⊢
          by_cases h404 : status = 404
          · simp [if_pos h404] at h
          · simp only [if_neg h404] at h ⊢
            by_cases hn : n = 0
            · simp [if_pos hn] at h
            · simp only [if_neg hn] at h ⊢
              exact ih _ _ _ d h

/-- With the cache disabled, no pass through the retry loop ever writes the
cache. -/
theorem requestLoop_noCache (transport : ℕ → TResp) (key : String)
    (sent : List (String × PyVal)) :
    ∀ (n : ℕ) (backoff : ℚ) (st : DispatchState) (tr : Trace),
    (requestLoop transport key sent false n backoff st tr).2.1.cache = st.cache := by
  intro n
  induction n with
  | zero => intro backoff st tr; rfl
  | succ n ih =>
    intro backoff st tr
    rw [requestLoop]
    cases htr : transport (tr.transportCalls) with
    | netErr =>
      simp only [htr]
      by_cases hn : n = 0
      · simp [if_pos hn, checkRateLimit_cache]
      · simp only [if_neg hn]
        rw [ih]
        exact checkRateLimit_cache st
    | http status retryAfter body =>
      simp only [htr]
      by_cases h429 : status = 429
      · simp only [if_pos h429]
        rw [ih]
        exact checkRateLimit_cache st
      · simp only [if_neg h429]
        by_cases h2xx : 200 ≤ status ∧ status < 300
        · simp [if_pos h2xx, checkRateLimit_cache]
        · simp only [if_neg h2xx]
          by_cases h404 : status = 404
          · simp [if_pos h404, checkRateLimit_cache]
          · simp only [if_neg h404]
            by_cases hn : n = 0
            · simp [if_pos hn, checkRateLimit_cache]
            · simp only [if_neg hn]
              rw [ih]
              exact checkRateLimit_cache st

theorem request_cacheHit (apiKey : String) (transport : ℕ → TResp)
    (method endpoint : String) (params : List (String × PyVal))
    (st : DispatchState) (tr : Trace) (d : Json)
    (h : cacheLive st.cache (requestKey apiKey endpoint params) st.now = some d) :
    request apiKey transport method endpoint params true st tr = (.ok d, st, tr) := by
  simp only [request, if_true]
  rw [show cacheLive st.cache
      (getCacheKey endpoint (setParam params "api_key" (.str apiKey))) st.now = some d from h]

theorem request_cacheMiss (apiKey : String) (transport : ℕ → TResp)
    (method endpoint : String) (params : List (String × PyVal))
    (st : DispatchState) (tr : Trace)
    (h : cacheLive st.cache (requestKey apiKey endpoint params) st.now = none) :
    request apiKey transport method endpoint params true st tr =
      requestLoop transport (requestKey apiKey endpoint params)
        (setParam params "api_key" (.str apiKey)) true 3 1 st tr := by
  simp only [request, if_true]
  rw [show cacheLive st.cache
      (getCacheKey endpoint (setParam params "api_key" (.str apiKey))) st.now = none from h]
  rfl

theorem request_noCache (apiKey : String) (transport : ℕ → TResp)
    (method endpoint : String) (params : List (String × PyVal))
    (st : DispatchState) (tr : Trace) :
    request apiKey transport method endpoint params false st tr =
      requestLoop transport (requestKey apiKey endpoint params)
        (setParam params "api_key" (.str apiKey)) false 3 1 st tr := by
  simp only [request, Bool.false_eq_true, if_false]
  rfl

/-! ### Claim C2: cache writes and the useCache flag -/

/-- C2 counterexample: a dispatch made with `useCache = false` whose single
transport attempt succeeds leaves the cache empty — no entry is written for
the request's fingerprint, contradicting the claim that the write occurs
even when `useCache` is false. -/
theorem request_noCache_never_writes_counterexample :
    (request "K" (constTransport (.http 200 none (.str "fresh"))) "GET" "/e" []
        false idleState Trace.empty).1 = .ok (.str "fresh") ∧
    (request "K" (constTransport (.http 200 none (.str "fresh"))) "GET" "/e" []
        false idleState Trace.empty).2.1.cache = [] :=
  ⟨rfl, rfl⟩

/-- C2 (amended): after a dispatch that returns a payload with `useCache`
set, the cache holds an entry for the request's fingerprint with that
payload; with `useCache` unset the cache is left exactly as it was — the
success path's cache write is guarded by `use_cache` (api_client.py line
105), so no write happens for a `useCache = false` dispatch. -/
theorem request_cache_write_iff_useCache
    (apiKey : String) (transport : ℕ → TResp) (method endpoint : String)
    (params : List (String × PyVal)) (st : DispatchState) (tr : Trace) (d : Json) :
    ((request apiKey transport method endpoint params true st tr).1 = .ok d →
      ∃ ts, ((request apiKey transport method endpoint params true st tr).2.1.cache).lookup
          (requestKey apiKey endpoint params) = some (d, ts)) ∧
    (request apiKey transport method endpoint params false st tr).2.1.cache = st.cache := by
  constructor
  · intro hok
    cases hlive : cacheLive st.cache (requestKey apiKey endpoint params) st.now with
    | some d0 =>
      rw [request_cacheHit apiKey transport method endpoint params st tr d0 hlive] at hok ⊢
      simp only [ReqResult.ok.injEq] at hok
      subst hok
      simp only [cacheLive] at hlive
      cases hl : st.cache.lookup (requestKey apiKey endpoint params) with
      | none => rw [hl] at hlive; simp at hlive
      | some p =>
        rw [hl] at hlive
        rcases p with ⟨d1, ts1⟩
        simp only [] at hlive
        by_cases hts : st.now - ts1 < 300
        · rw [if_pos hts] at hlive
          simp only [Option.some.injEq] at hlive
          subst hlive
          exact ⟨ts1, rfl⟩
        · rw [if_neg hts] at hlive
          simp at hlive
    | none =>
      rw [request_cacheMiss apiKey transport method endpoint params st tr hlive] at hok ⊢
      exact ⟨_, requestLoop_ok_cache transport _ _ 3 1 st tr d hok⟩
  · rw [request_noCache]
    exact requestLoop_noCache transport _ _ 3 1 st tr

/-- Witness for C2 (amended): with the cache enabled a successful dispatch
leaves a fresh entry under the fingerprint; with it disabled the cache is
unchanged. -/
theorem request_cache_write_iff_useCache_witness :
    (∃ ts, ((request "K" (constTransport (.http 200 none (.str "fresh"))) "GET" "/e" []
        true idleState Trace.empty).2.1.cache).lookup (requestKey "K" "/e" []) =
        some (.str "fresh", ts)) ∧
    (request "K" (constTransport (.http 200 none (.str "fresh"))) "GET" "/e" []
        false idleState Trace.empty).2.1.cache = idleState.cache :=
  ⟨(request_cache_write_iff_useCache "K" (constTransport (.http 200 none (.str "fresh")))
      "GET" "/e" [] idleState Trace.empty (.str "fresh")).1 rfl,
   (request_cache_write_iff_useCache "K" (constTransport (.http 200 none (.str "fresh")))
      "GET" "/e" [] idleState Trace.empty (.str "fresh")).2⟩

/-! ### Claim C6: 404 fails immediately -/

theorem requestLoop_404 (transport : ℕ → TResp) (key : String)
    (sent : List (String × PyVal)) (useCache : Bool) (n : ℕ) (backoff : ℚ)
    (st : DispatchState) (tr : Trace) (ra : Option ℕ) (body : Json)
    (h404 : transport tr.transportCalls = .http 404 ra body) :
    (requestLoop transport key sent useCache (n + 1) backoff st tr).1 =
      .errValue "TITLE_NOT_FOUND" ∧
    (requestLoop transport key sent useCache (n + 1) backoff st tr).2.2.transportCalls =
      tr.transportCalls + 1 ∧
    (requestLoop transport key sent useCache (n + 1) backoff st tr).2.2.retrySleeps =
      tr.retrySleeps := by
  rw [requestLoop]
  simp only [h404]
  have h429 : (404 : ℕ) ≠ 429 := by decide
  have h2xx : ¬ (200 ≤ (404:ℕ) ∧ (404:ℕ) < 300) := by decide
  simp only [if_neg h429, if_neg h2xx, if_pos rfl]
  exact ⟨rfl, rfl, rfl⟩

/-- C6: a dispatch that reaches the network (no live cache entry when the
cache is consulted) and whose first transport attempt returns HTTP 404 makes
exactly one transport attempt, performs no backoff sleep, fails with the
`ValueError("TITLE_NOT_FOUND")` sentinel, and the `search_title` tool
adapter re-raises that sentinel unchanged rather than wrapping it as a
generic failure. -/
theorem request_404_single_attempt
    (apiKey : String) (transport : ℕ → TResp) (method endpoint : String)
    (params : List (String × PyVal)) (useCache : Bool)
    (st : DispatchState) (tr : Trace) (ra : Option ℕ) (body : Json)
    (hmiss : useCache = true →
      cacheLive st.cache (requestKey apiKey endpoint params) st.now = none)
    (h404 : transport tr.transportCalls = .http 404 ra body) :
    (request apiKey transport method endpoint params useCache st tr).1 =
      .errValue "TITLE_NOT_FOUND" ∧
    (request apiKey transport method endpoint params useCache st tr).2.2.transportCalls =
      tr.transportCalls + 1 ∧
    (request apiKey transport method endpoint params useCache st tr).2.2.retrySleeps =
      tr.retrySleeps ∧
    surfaceSearchError (.errValue "TITLE_NOT_FOUND") = .valueError "TITLE_NOT_FOUND" := by
  have hloop := requestLoop_404 transport (requestKey apiKey endpoint params)
    (setParam params "api_key" (.str apiKey)) useCache 2 1 st tr ra body h404
  cases useCache with
  | true =>
    rw [request_cacheMiss apiKey transport method endpoint params st tr (hmiss rfl)]
    exact ⟨hloop.1, hloop.2.1, hloop.2.2, rfl⟩
  | false =>
    rw [request_noCache apiKey transport method endpoint params st tr]
    exact ⟨hloop.1, hloop.2.1, hloop.2.2, rfl⟩

/-- Witness for C6: an idle client dispatching against a transport that
answers 404. -/
theorem request_404_single_attempt_witness :
    (request "K" (constTransport (.http 404 none .null)) "GET" "/movie/999999" []
        true idleState Trace.empty).1 = .errValue "TITLE_NOT_FOUND" ∧
    (request "K" (constTransport (.http 404 none .null)) "GET" "/movie/999999" []
        true idleState Trace.empty).2.2.transportCalls = 1 :=
  ⟨(request_404_single_attempt "K" (constTransport (.http 404 none .null)) "GET"
      "/movie/999999" [] true idleState Trace.empty none .null
      (fun _ => rfl) rfl).1,
   (request_404_single_attempt "K" (constTransport (.http 404 none .null)) "GET"
      "/movie/999999" [] true idleState Trace.empty none .null
      (fun _ => rfl) rfl).2.1⟩

/-! ### Claim C5: cache hits within the TTL -/

theorem requestKey_perm (apiKey e : String) {p₁ p₂ : List (String × PyVal)}
    (hperm : List.Perm p₁ p₂)
    (hnd : ((setParam p₁ "api_key" (.str apiKey)).map Prod.fst).Nodup) :
    requestKey apiKey e p₂ = requestKey apiKey e p₁ := by
  unfold requestKey getCacheKey
  have hsp : List.Perm (setParam p₁ "api_key" (.str apiKey))
      (setParam p₂ "api_key" (.str apiKey)) := by
    unfold setParam
    exact (hperm.filter _).append_right _
  rw [sortParams_eq_of_perm hsp hnd]

/-- C5 counterexample: the TTL runs from the time an entry was *stored*, not
from the previous response.  With an entry stored at time 0, a first
dispatch at time 299 is served from the cache; a second identical dispatch 2
seconds later (well within 300 seconds of the first's successful response)
finds the entry expired, reaches the network, and returns the transport's
fresh payload — not the first dispatch's payload, and with one transport
call instead of zero. -/
theorem request_ttl_counterexample :
    (request "K" (constTransport (.http 200 none (.str "new"))) "GET" "/e" [] true
        ⟨[("/e:[('api_key', 'K')]", .str "old", 0)], [], 299⟩ Trace.empty).1 =
      .ok (.str "old") ∧
    (request "K" (constTransport (.http 200 none (.str "new"))) "GET" "/e" [] true
        ⟨[("/e:[('api_key', 'K')]", .str "old", 0)], [], 299⟩ Trace.empty).2.2.transportCalls
      = 0 ∧
    (request "K" (constTransport (.http 200 none (.str "new"))) "GET" "/e" [] true
        ⟨[("/e:[('api_key', 'K')]", .str "old", 0)], [], 301⟩ Trace.empty).1 ≠
      .ok (.str "old") ∧
    (request "K" (constTransport (.http 200 none (.str "new"))) "GET" "/e" [] true
        ⟨[("/e:[('api_key', 'K')]", .str "old", 0)], [], 301⟩ Trace.empty).2.2.transportCalls
      = 1 := by
  refine ⟨rfl, rfl, ?_, rfl⟩
  intro h
  have hnew : (request "K" (constTransport (.http 200 none (.str "new"))) "GET" "/e" [] true
      ⟨[("/e:[('api_key', 'K')]", .str "old", 0)], [], 301⟩ Trace.empty).1 =
      ReqResult.ok (.str "new") := rfl
  rw [hnew] at h
  injection h with h1
  injection h1 with h2
  exact absurd h2 (by decide)

/-- C5 (amended): for two dispatches with the same endpoint and the same
parameter set (in any order, keys distinct), both with `useCache` enabled,
where the *first* dispatch fetched its payload from the network (no live
cache entry existed for the fingerprint when it ran) and the second runs
within 300 seconds of the first's successful response, the second dispatch
is served from the cache: it returns the first's payload, makes zero
transport calls and leaves the state untouched. -/
theorem request_cache_hit_within_ttl
    (apiKey e : String) (p₁ p₂ : List (String × PyVal)) (tpt₁ tpt₂ : ℕ → TResp)
    (st₀ st₁ : DispatchState) (tr₀ : Trace) (tr₁ : Trace) (r₁ : ReqResult)
    (d : Json) (δ : ℚ)
    (hrun : request apiKey tpt₁ "GET" e p₁ true st₀ tr₀ = (r₁, st₁, tr₁))
    (hok : r₁ = .ok d)
    (hmiss : cacheLive st₀.cache (requestKey apiKey e p₁) st₀.now = none)
    (hperm : List.Perm p₁ p₂)
    (hnd : ((setParam p₁ "api_key" (.str apiKey)).map Prod.fst).Nodup)
    (h0 : 0 ≤ δ) (hlt : δ < 300) :
    request apiKey tpt₂ "GET" e p₂ true { st₁ with now := st₁.now + δ } Trace.empty =
      (.ok d, { st₁ with now := st₁.now + δ }, Trace.empty) := by
  rw [request_cacheMiss apiKey tpt₁ "GET" e p₁ st₀ tr₀ hmiss] at hrun
  have hfst : (requestLoop tpt₁ (requestKey apiKey e p₁)
      (setParam p₁ "api_key" (.str apiKey)) true 3 1 st₀ tr₀).1 = .ok d := by
    rw [hrun]
    exact hok
  have hlk := requestLoop_ok_cache tpt₁ (requestKey apiKey e p₁)
    (setParam p₁ "api_key" (.str apiKey)) 3 1 st₀ tr₀ d hfst
  rw [hrun] at hlk
  apply request_cacheHit
  rw [requestKey_perm apiKey e hperm hnd]
  simp only [cacheLive]
  rw [show ({ st₁ with now := st₁.now + δ } : DispatchState).cache = st₁.cache from rfl]
  rw [hlk]
  simp only []
  have harith : st₁.now + δ - st₁.now = δ := by ring
  simp only [harith]
  rw [if_pos hlt]

/-- Witness for C5 (amended): a fresh fetch followed one second later by an
identical dispatch that is served from the cache with no transport call. -/
theorem request_cache_hit_within_ttl_witness :
    request "K" (constTransport (.http 404 none .null)) "GET" "/e" [("query", .str "q")] true
      { (request "K" (constTransport (.http 200 none (.str "d"))) "GET" "/e"
          [("query", .str "q")] true idleState Trace.empty).2.1 with
        now := (request "K" (constTransport (.http 200 none (.str "d"))) "GET" "/e"
          [("query", .str "q")] true idleState Trace.empty).2.1.now + 1 } Trace.empty =
    (.ok (.str "d"),
     { (request "K" (constTransport (.http 200 none (.str "d"))) "GET" "/e"
          [("query", .str "q")] true idleState Trace.empty).2.1 with
        now := (request "K" (constTransport (.http 200 none (.str "d"))) "GET" "/e"
          [("query", .str "q")] true idleState Trace.empty).2.1.now + 1 },
     Trace.empty) :=
  request_cache_hit_within_ttl "K" "/e" [("query", .str "q")] [("query", .str "q")]
    (constTransport (.http 200 none (.str "d"))) (constTransport (.http 404 none .null))
    idleState _ Trace.empty _ _ (.str "d") 1 rfl rfl rfl (List.Perm.refl _)
    (by decide) (by decide) (by decide)

/-! ### Claim C1: exhausted 429s -/

/-- C1 (code bug): when every transport attempt answers HTTP 429 with no
Retry-After header, the dispatcher sleeps `int(backoff) = 1` second after
each of its three attempts — the backoff is never doubled, because the
inline 429 check at api_client.py line 95 `continue`s before
`raise_for_status()` ever runs, making the `except`-side 429 arm (lines
113-121) unreachable — and when the attempt loop is exhausted the function
falls off the end and returns Python `None` (`retNone`): `RateLimitError`
is never raised, contradicting the specified outcome. -/
theorem request_allRateLimited_returns_none :
    (request "K" (constTransport (.http 429 none (.obj []))) "GET" "/search/movie"
        [("query", .str "q")] true idleState Trace.empty).1 = .retNone ∧
    (request "K" (constTransport (.http 429 none (.obj []))) "GET" "/search/movie"
        [("query", .str "q")] true idleState Trace.empty).2.2.transportCalls = 3 ∧
    (request "K" (constTransport (.http 429 none (.obj []))) "GET" "/search/movie"
        [("query", .str "q")] true idleState Trace.empty).2.2.retrySleeps = [1, 1, 1] :=
  ⟨rfl, rfl, by decide⟩

/-! ### Claim C3: the credential and cached state -/

theorem escQ_of_no_squote : ∀ {s : List Char}, squote ∉ s → escQ s = s
  | [], _ => rfl
  | c :: cs, h => by
    have hc : c ≠ squote := fun e => h (e ▸ List.mem_cons_self c cs)
    have hcs : squote ∉ cs := fun m => h (List.mem_cons_of_mem c m)
    simp [escQ, hc, escQ_of_no_squote hcs]

theorem str_infix_pyReprStr {s : List Char} (hq : squote ∉ s) :
    List.IsInfix s (pyReprStr s) := by
  have hcond : ¬ (squote ∈ s ∧ dquote ∉ s) := fun h => hq h.1
  rw [pyReprStr, if_neg hcond, escQ_of_no_squote hq]
  exact ⟨[squote], [squote], by simp⟩

theorem val_infix_pairChars (k : String) (v : PyVal) :
    List.IsInfix (pyReprVal v) (pairChars k v) := by
  refine ⟨Char.ofNat 40 :: (pyReprStr k.data ++ [Char.ofNat 44, Char.ofNat 32]),
    [Char.ofNat 41], ?_⟩
  simp [pairChars]

theorem mem_infix_joinSep {x : List Char} :
    ∀ {l : List (List Char)}, x ∈ l → List.IsInfix x (joinSep l) := by
  intro l
  induction l with
  | nil => intro h; exact absurd h (List.not_mem_nil x)
  | cons y ys ih =>
    intro h
    rcases List.mem_cons.mp h with rfl | h
    · cases ys with
      | nil => exact List.infix_rfl
      | cons z zs =>
        exact ⟨[], Char.ofNat 44 :: Char.ofNat 32 :: joinSep (z :: zs), by simp [joinSep]⟩
    · have hys : ys ≠ [] := List.ne_nil_of_mem h
      cases ys with
      | nil => exact absurd rfl hys
      | cons z zs =>
        refine (ih h).trans ⟨y ++ [Char.ofNat 44, Char.ofNat 32], [], ?_⟩
        simp [joinSep]

theorem infix_listChars {x : List Char} {ps : List (String × PyVal)}
    {p : String × PyVal} (hp : p ∈ ps) (hx : List.IsInfix x (pairChars p.1 p.2)) :
    List.IsInfix x (listChars ps) := by
  have h1 : List.IsInfix (pairChars p.1 p.2) (joinSep (ps.map fun q => pairChars q.1 q.2)) :=
    mem_infix_joinSep (List.mem_map_of_mem _ hp)
  have h2 : List.IsInfix (joinSep (ps.map fun q => pairChars q.1 q.2)) (listChars ps) :=
    ⟨[Char.ofNat 91], [Char.ofNat 93], by simp [listChars]⟩
  exact hx.trans (h1.trans h2)

theorem getCacheKey_data (e : String) (ps : List (String × PyVal)) :
    (getCacheKey e ps).data = e.data ++ Char.ofNat 58 :: listChars (sortParams ps) := by
  show (e ++ ":" ++ String.mk (listChars (sortParams ps))).data = _
  rw [String.data_append, String.data_append, List.append_assoc]
  rfl

/-- The injected credential pair is a member of the params actually sent. -/
theorem apiKey_mem_setParam (ps : List (String × PyVal)) (apiKey : String) :
    ("api_key", PyVal.str apiKey) ∈ setParam ps "api_key" (.str apiKey) := by
  unfold setParam
  exact List.mem_append_right _ (List.mem_singleton.mpr rfl)

/-- The credential string occurs verbatim inside the request fingerprint. -/
theorem apiKey_infix_requestKey (apiKey endpoint : String)
    (params : List (String × PyVal)) (hq : squote ∉ apiKey.data) :
    List.IsInfix apiKey.data (requestKey apiKey endpoint params).data := by
  have hmem : ("api_key", PyVal.str apiKey) ∈
      sortParams (setParam params "api_key" (.str apiKey)) :=
    (sortParams_perm _).mem_iff.mpr (apiKey_mem_setParam params apiKey)
  have hval : List.IsInfix apiKey.data (pyReprVal (PyVal.str apiKey)) :=
    str_infix_pyReprStr hq
  have hkey : List.IsInfix apiKey.data (listChars
      (sortParams (setParam params "api_key" (.str apiKey)))) :=
    infix_listChars hmem (hval.trans (val_infix_pairChars "api_key" (PyVal.str apiKey)))
  rw [show requestKey apiKey endpoint params =
    getCacheKey endpoint (setParam params "api_key" (.str apiKey)) from rfl]
  rw [getCacheKey_data]
  exact hkey.trans ⟨endpoint.data ++ [Char.ofNat 58], [], by simp⟩

theorem requestLoop_sentParams (transport : ℕ → TResp) (key : String)
    (sent : List (String × PyVal)) (useCache : Bool) :
    ∀ (n : ℕ) (backoff : ℚ) (st : DispatchState) (tr : Trace),
    ∀ q ∈ (requestLoop transport key sent useCache n backoff st tr).2.2.sentParams,
      q ∈ tr.sentParams ∨ q = sent := by
  intro n
  induction n with
  | zero => intro backoff st tr q hq; exact .inl hq
  | succ n ih =>
    intro backoff st tr q hq
    rw [requestLoop] at hq
    have step : ∀ {l : List (List (String × PyVal))},
        q ∈ tr.sentParams ++ [sent] → q ∈ tr.sentParams ∨ q = sent := by
      intro _ h
      rcases List.mem_append.mp h with h | h
      · exact .inl h
      · exact .inr (List.mem_singleton.mp h)
    cases htr : transport (tr.transportCalls) with
    | netErr =>
      simp only [htr] at hq
      by_cases hn : n = 0
      · rw [if_pos hn] at hq
        exact step (l := []) hq
      · rw [if_neg hn] at hq
        rcases ih _ _ _ q hq with h | h
        · exact step (l := []) h
        · exact .inr h
    | http status retryAfter body =>
      simp only [htr] at hq
      by_cases h429 : status = 429
      · rw [if_pos h429] at hq
        rcases ih _ _ _ q hq with h | h
        · exact step (l := []) h
        · exact .inr h
      · rw [if_neg h429] at hq
        by_cases h2xx : 200 ≤ status ∧ status < 300
        · rw [if_pos h2xx] at hq
          exact step (l := []) hq
        · rw [if_neg h2xx] at hq
          by_cases h404 : status = 404
          · rw [if_pos h404] at hq
            exact step (l := []) hq
          · rw [if_neg h404] at hq
            by_cases hn : n = 0
            · rw [if_pos hn] at hq
              exact step (l := []) hq
            · rw [if_neg hn] at hq
              rcases ih _ _ _ q hq with h | h
              · exact step (l := []) h
              · exact .inr h

/-- C3 (amended): the credential is injected as the `api_key` query
parameter of every outbound transport call of a dispatch, but it *does*
appear in cached state: the request fingerprint used as the cache key is
computed from the parameter map after credential injection (api_client.py
lines 71-76), so the credential string occurs verbatim inside every cache
key. -/
theorem request_credential_in_params_and_key
    (apiKey : String) (transport : ℕ → TResp) (method endpoint : String)
    (params : List (String × PyVal)) (useCache : Bool) (st : DispatchState)
    (hq : squote ∉ apiKey.data) :
    (∀ q ∈ (request apiKey transport method endpoint params useCache st
        Trace.empty).2.2.sentParams, ("api_key", PyVal.str apiKey) ∈ q) ∧
    List.IsInfix apiKey.data (requestKey apiKey endpoint params).data := by
  refine ⟨?_, apiKey_infix_requestKey apiKey endpoint params hq⟩
  intro q hq2
  have hsent : q = setParam params "api_key" (.str apiKey) → ("api_key", PyVal.str apiKey) ∈ q :=
    fun h => h ▸ apiKey_mem_setParam params apiKey
  cases useCache with
  | true =>
    cases hlive : cacheLive st.cache (requestKey apiKey endpoint params) st.now with
    | some d =>
      rw [request_cacheHit apiKey transport method endpoint params st Trace.empty d hlive] at hq2
      exact absurd hq2 (List.not_mem_nil q)
    | none =>
      rw [request_cacheMiss apiKey transport method endpoint params st Trace.empty hlive] at hq2
      rcases requestLoop_sentParams transport _ _ true 3 1 st Trace.empty q hq2 with h | h
      · exact absurd h (List.not_mem_nil q)
      · exact hsent h
  | false =>
    rw [request_noCache apiKey transport method endpoint params st Trace.empty] at hq2
    rcases requestLoop_sentParams transport _ _ false 3 1 st Trace.empty q hq2 with h | h
    · exact absurd h (List.not_mem_nil q)
    · exact hsent h

/-- Witness for C3 (amended): the credential string SECRET sits verbatim
inside the fingerprint of a search dispatch. -/
theorem request_credential_in_params_and_key_witness :
    List.IsInfix "SECRET".data
      (requestKey "SECRET" "/search/movie" [("query", PyVal.str "x")]).data :=
  (request_credential_in_params_and_key "SECRET"
    (constTransport (.http 200 none (.str "d"))) "GET" "/search/movie"
    [("query", .str "x")] true idleState (by decide)).2

/-- C3 counterexample: after a successful cached dispatch with credential
`SECRET`, the cache's only key is the fingerprint, and the credential occurs
verbatim inside it — refuting "the credential never appears in any cached
state". -/
theorem request_credential_cached_counterexample :
    (request "SECRET" (constTransport (.http 200 none (.str "d"))) "GET" "/search/movie"
        [("query", .str "x")] true idleState Trace.empty).2.1.cache.map Prod.fst =
      ["/search/movie:[('api_key', 'SECRET'), ('query', 'x')]"] ∧
    List.IsInfix "SECRET".data
      "/search/movie:[('api_key', 'SECRET'), ('query', 'x')]".data := by
  exact ⟨by decide, by decide⟩

/-! ### Claim C7: fingerprint injectivity -/

theorem digitChar_isDigit {k : ℕ} (h : k < 10) : (Nat.digitChar k).isDigit = true := by
  interval_cases k <;> decide

theorem digitChar_toNat {k : ℕ} (h : k < 10) : (Nat.digitChar k).toNat = k + 48 := by
  interval_cases k <;> decide

theorem natCharsAux_digits : ∀ fuel n, ∀ c ∈ natCharsAux fuel n, c.isDigit = true := by
  intro fuel
  induction fuel with
  | zero => intro n c hc; exact absurd hc (List.not_mem_nil c)
  | succ fuel ih =>
    intro n c hc
    rw [natCharsAux] at hc
    by_cases h : n < 10
    · rw [if_pos h] at hc
      rw [List.mem_singleton.mp hc]
      exact digitChar_isDigit h
    · rw [if_neg h] at hc
      rcases List.mem_append.mp hc with hc | hc
      · exact ih _ c hc
      · rw [List.mem_singleton.mp hc]
        exact digitChar_isDigit (Nat.mod_lt n (by norm_num))

theorem natChars_digits (n : ℕ) : ∀ c ∈ natChars n, c.isDigit = true :=
  natCharsAux_digits (n + 1) n

theorem natChars_ne_nil (n : ℕ) : natChars n ≠ [] := by
  rw [natChars, natCharsAux]
  by_cases h : n < 10
  · rw [if_pos h]; simp
  · rw [if_neg h]; simp

theorem natChars_head_digit (n : ℕ) :
    ∃ c cs, natChars n = c :: cs ∧ c.isDigit = true := by
  cases hnc : natChars n with
  | nil => exact absurd hnc (natChars_ne_nil n)
  | cons c cs =>
    exact ⟨c, cs, rfl, natChars_digits n c (hnc ▸ List.mem_cons_self c cs)⟩

theorem decVal_append_one (l : List Char) (c : Char) :
    decVal (l ++ [c]) = decVal l * 10 + (c.toNat - 48) := by
  simp [decVal, List.foldl_append]

theorem decVal_natCharsAux : ∀ fuel n, n < fuel → decVal (natCharsAux fuel n) = n := by
  intro fuel
  induction fuel with
  | zero => intro n hn; exact absurd hn (Nat.not_lt_zero n)
  | succ fuel ih =>
    intro n hn
    rw [natCharsAux]
    by_cases h : n < 10
    · rw [if_pos h]
      show decVal [Nat.digitChar n] = n
      simp [decVal, digitChar_toNat h]
    · rw [if_neg h, decVal_append_one]
      have h10 : 10 ≤ n := Nat.le_of_not_lt h
      have hd : n / 10 < fuel := by
        have h1 : n / 10 < n := Nat.div_lt_self (by omega) (by norm_num)
        omega
      rw [ih (n / 10) hd, digitChar_toNat (Nat.mod_lt n (by norm_num))]
      omega

theorem natChars_inj {m n : ℕ} (h : natChars m = natChars n) : m = n := by
  have hm : decVal (natChars m) = m := decVal_natCharsAux (m + 1) m (Nat.lt_succ_self m)
  have hn : decVal (natChars n) = n := decVal_natCharsAux (n + 1) n (Nat.lt_succ_self n)
  rw [← hm, ← hn, h]

theorem predSplit (p : Char → Prop) :
    ∀ (l₁ : List Char) (c₁ : Char) (r₁ l₂ : List Char) (c₂ : Char) (r₂ : List Char),
    (∀ c ∈ l₁, p c) → ¬ p c₁ → (∀ c ∈ l₂, p c) → ¬ p c₂ →
    l₁ ++ c₁ :: r₁ = l₂ ++ c₂ :: r₂ → l₁ = l₂ ∧ c₁ = c₂ ∧ r₁ = r₂ := by
  intro l₁
  induction l₁ with
  | nil =>
    intro c₁ r₁ l₂ c₂ r₂ h1 hc1 h2 hc2 heq
    cases l₂ with
    | nil =>
      simp only [List.nil_append, List.cons.injEq] at heq
      exact ⟨rfl, heq.1, heq.2⟩
    | cons d l₂' =>
      simp only [List.nil_append, List.cons_append, List.cons.injEq] at heq
      exact absurd (heq.1 ▸ h2 d (List.mem_cons_self d l₂')) hc1
  | cons a l₁' ih =>
    intro c₁ r₁ l₂ c₂ r₂ h1 hc1 h2 hc2 heq
    cases l₂ with
    | nil =>
      simp only [List.cons_append, List.nil_append, List.cons.injEq] at heq
      exact absurd (heq.1 ▸ h1 a (List.mem_cons_self a l₁')) hc2
    | cons d l₂' =>
      simp only [List.cons_append, List.cons.injEq] at heq
      have hmain := ih c₁ r₁ l₂' c₂ r₂
        (fun c hc => h1 c (List.mem_cons_of_mem a hc)) hc1
        (fun c hc => h2 c (List.mem_cons_of_mem d hc)) hc2 heq.2
      exact ⟨by rw [heq.1, hmain.1], hmain.2.1, hmain.2.2⟩

theorem escQ_split : ∀ (s t r₁ r₂ : List Char), bslash ∉ s → bslash ∉ t →
    escQ s ++ squote :: r₁ = escQ t ++ squote :: r₂ → s = t ∧ r₁ = r₂ := by
  intro s
  induction s with
  | nil =>
    intro t r₁ r₂ _ hbt heq
    cases t with
    | nil =>
      simp only [escQ, List.nil_append, List.cons.injEq] at heq
      exact ⟨rfl, heq.2⟩
    | cons c t' =>
      by_cases hc : c = squote
      · subst hc
        simp [escQ, List.cons.injEq] at heq
        exact absurd heq.1.symm (by decide)
      · simp only [escQ, if_neg hc, List.singleton_append, List.nil_append,
          List.cons_append, List.cons.injEq] at heq
        exact absurd heq.1.symm hc
  | cons a s' ih =>
    intro t r₁ r₂ hbs hbt heq
    have hbs' : bslash ∉ s' := fun m => hbs (List.mem_cons_of_mem a m)
    cases t with
    | nil =>
      by_cases ha : a = squote
      · subst ha
        simp [escQ, List.cons.injEq] at heq
        exact absurd heq.1 (by decide)
      · simp only [escQ, if_neg ha, List.singleton_append, List.nil_append,
          List.cons_append, List.cons.injEq] at heq
        exact absurd heq.1 ha
    | cons c t' =>
      have hbt' : bslash ∉ t' := fun m => hbt (List.mem_cons_of_mem c m)
      by_cases ha : a = squote
      · by_cases hc : c = squote
        · subst ha
          subst hc
          simp only [escQ, if_pos rfl, if_true, List.cons_append, List.cons.injEq,
            List.append_assoc, List.nil_append] at heq
          have hmain := ih t' r₁ r₂ hbs' hbt' heq.2.2
          exact ⟨by rw [hmain.1], hmain.2⟩
        · subst ha
          simp only [escQ, if_pos rfl, if_true, if_neg hc, List.cons_append,
            List.nil_append, List.singleton_append, List.cons.injEq] at heq
          exact absurd (heq.1 ▸ List.mem_cons_self c t') hbt
      · by_cases hc : c = squote
        · subst hc
          simp only [escQ, if_pos rfl, if_true, if_neg ha, List.cons_append,
            List.nil_append, List.singleton_append, List.cons.injEq] at heq
          exact absurd (heq.1.symm ▸ List.mem_cons_self a s') hbs
        · simp only [escQ, if_neg ha, if_neg hc, List.singleton_append,
            List.cons_append, List.cons.injEq] at heq
          have hmain := ih t' r₁ r₂ hbs' hbt' heq.2
          exact ⟨by rw [heq.1, hmain.1], hmain.2⟩

theorem goodStr_no_bslash {s : List Char} (h : goodStr s) : bslash ∉ s :=
  fun m => ((h bslash m).2.2) rfl

theorem pyReprStr_split (s t r₁ r₂ : List Char) (hs : goodStr s) (ht : goodStr t)
    (heq : pyReprStr s ++ r₁ = pyReprStr t ++ r₂) : s = t ∧ r₁ = r₂ := by
  by_cases cs : squote ∈ s ∧ dquote ∉ s
  · by_cases ct : squote ∈ t ∧ dquote ∉ t
    · rw [pyReprStr, if_pos cs, pyReprStr, if_pos ct] at heq
      simp only [List.cons_append, List.append_assoc, List.singleton_append,
        List.cons.injEq] at heq
      exact
        have hmain := predSplit (fun c => c ≠ dquote) s dquote r₁ t dquote r₂
          (fun c hc he => cs.2 (he ▸ hc)) (by simp)
          (fun c hc he => ct.2 (he ▸ hc)) (by simp) heq.2
        ⟨hmain.1, hmain.2.2⟩
    · rw [pyReprStr, if_pos cs, pyReprStr, if_neg ct] at heq
      simp only [List.cons_append, List.cons.injEq] at heq
      exact absurd heq.1 (by decide)
  · by_cases ct : squote ∈ t ∧ dquote ∉ t
    · rw [pyReprStr, if_neg cs, pyReprStr, if_pos ct] at heq
      simp only [List.cons_append, List.cons.injEq] at heq
      exact absurd heq.1 (by decide)
    · rw [pyReprStr, if_neg cs, pyReprStr, if_neg ct] at heq
      simp only [List.cons_append, List.append_assoc, List.singleton_append,
        List.cons.injEq] at heq
      exact escQ_split s t r₁ r₂ (goodStr_no_bslash hs) (goodStr_no_bslash ht) heq.2

theorem intChars_split (m n : ℤ) (r₁ r₂ : List Char)
    (heq : intChars m ++ Char.ofNat 41 :: r₁ = intChars n ++ Char.ofNat 41 :: r₂) :
    m = n ∧ r₁ = r₂ := by
  have hdig : ∀ (a b : ℕ) (u₁ u₂ : List Char),
      natChars a ++ Char.ofNat 41 :: u₁ = natChars b ++ Char.ofNat 41 :: u₂ →
      a = b ∧ u₁ = u₂ := by
    intro a b u₁ u₂ he
    have hmain := predSplit (fun c => c.isDigit = true) (natChars a) (Char.ofNat 41) u₁
      (natChars b) (Char.ofNat 41) u₂
      (natChars_digits a) (by decide) (natChars_digits b) (by decide) he
    exact ⟨natChars_inj hmain.1, hmain.2.2⟩
  by_cases hm : m < 0
  · by_cases hn : n < 0
    · rw [intChars, if_pos hm, intChars, if_pos hn] at heq
      simp only [List.cons_append, List.cons.injEq] at heq
      have hmain := hdig m.natAbs n.natAbs r₁ r₂ heq.2
      exact ⟨by omega, hmain.2⟩
    · rw [intChars, if_pos hm, intChars, if_neg hn] at heq
      obtain ⟨c, cs, hnc, hcd⟩ := natChars_head_digit n.natAbs
      rw [hnc] at heq
      simp only [List.cons_append, List.cons.injEq] at heq
      rw [← heq.1] at hcd
      exact absurd hcd (by decide)
  · by_cases hn : n < 0
    · rw [intChars, if_neg hm, intChars, if_pos hn] at heq
      obtain ⟨c, cs, hmc, hcd⟩ := natChars_head_digit m.natAbs
      rw [hmc] at heq
      simp only [List.cons_append, List.cons.injEq] at heq
      rw [heq.1] at hcd
      exact absurd hcd (by decide)
    · rw [intChars, if_neg hm, intChars, if_neg hn] at heq
      have hmain := hdig m.natAbs n.natAbs r₁ r₂ heq
      exact ⟨by omega, hmain.2⟩

theorem pyReprStr_head (s : List Char) :
    ∃ rest, pyReprStr s = squote :: rest ∨ pyReprStr s = dquote :: rest := by
  rw [pyReprStr]
  by_cases h : squote ∈ s ∧ dquote ∉ s
  · rw [if_pos h]; exact ⟨s ++ [dquote], .inr rfl⟩
  · rw [if_neg h]; exact ⟨escQ s ++ [squote], .inl rfl⟩

theorem pyReprVal_split (v w : PyVal) (r₁ r₂ : List Char)
    (hv : goodPyVal v) (hw : goodPyVal w)
    (heq : pyReprVal v ++ Char.ofNat 41 :: r₁ = pyReprVal w ++ Char.ofNat 41 :: r₂) :
    v = w ∧ r₁ = r₂ := by
  have strInt : ∀ (s : String) (n : ℤ) (u₁ u₂ : List Char),
      pyReprStr s.data ++ u₁ ≠ intChars n ++ u₂ := by
    intro s n u₁ u₂ he
    obtain ⟨rest, hh⟩ := pyReprStr_head s.data
    by_cases hn : n < 0
    · rw [intChars, if_pos hn] at he
      rcases hh with hh | hh <;>
        (rw [hh] at he
         simp only [List.cons_append, List.cons.injEq] at he
         exact absurd he.1 (by decide))
    · rw [intChars, if_neg hn] at he
      obtain ⟨c, cs, hnc, hcd⟩ := natChars_head_digit n.natAbs
      rw [hnc] at he
      rcases hh with hh | hh <;>
        (rw [hh] at he
         simp only [List.cons_append, List.cons.injEq] at he
         rw [← he.1] at hcd
         exact absurd hcd (by decide))
  cases v with
  | str s =>
    cases w with
    | str t =>
      have hmain := pyReprStr_split s.data t.data (Char.ofNat 41 :: r₁)
        (Char.ofNat 41 :: r₂) hv hw heq
      have hst : s = t := by
        cases s with
        | mk ds =>
          cases t with
          | mk dt => exact congrArg String.mk hmain.1
      refine ⟨by rw [hst], ?_⟩
      have := hmain.2
      simp only [List.cons.injEq] at this
      exact this.2
    | int nn => exact absurd heq (strInt s nn _ _)
  | int n =>
    cases w with
    | str t => exact absurd heq.symm (strInt t n _ _)
    | int nn =>
      have hmain := intChars_split n nn r₁ r₂ heq
      exact ⟨by rw [hmain.1], hmain.2⟩

theorem pairChars_split (k₁ k₂ : String) (v₁ v₂ : PyVal) (r₁ r₂ : List Char)
    (hk₁ : goodStr k₁.data) (hk₂ : goodStr k₂.data)
    (hv₁ : goodPyVal v₁) (hv₂ : goodPyVal v₂)
    (heq : pairChars k₁ v₁ ++ r₁ = pairChars k₂ v₂ ++ r₂) :
    k₁ = k₂ ∧ v₁ = v₂ ∧ r₁ = r₂ := by
  simp only [pairChars, List.cons_append, List.append_assoc, List.cons.injEq,
    List.singleton_append] at heq
  have hk := pyReprStr_split k₁.data k₂.data _ _ hk₁ hk₂ heq.2
  have hkeys : k₁ = k₂ := by
    cases k₁ with
    | mk d₁ =>
      cases k₂ with
      | mk d₂ => exact congrArg String.mk hk.1
  have htail := hk.2
  simp only [List.cons.injEq] at htail
  have hv := pyReprVal_split v₁ v₂ r₁ r₂ hv₁ hv₂ htail.2.2
  exact ⟨hkeys, hv.1, hv.2⟩

theorem joinSep_cons_append (x : List Char) (l : List (List Char)) (y : List Char) :
    joinSep (x :: l) ++ y = x ++ (match l with
      | [] => y
      | _ :: _ => Char.ofNat 44 :: Char.ofNat 32 :: (joinSep l ++ y)) := by
  cases l with
  | nil => simp [joinSep]
  | cons z zs => simp [joinSep]

theorem joinSepPairs_split :
    ∀ (ps qs : List (String × PyVal)) (r₁ r₂ : List Char),
    goodParams ps → goodParams qs →
    joinSep (ps.map fun p => pairChars p.1 p.2) ++ Char.ofNat 93 :: r₁ =
      joinSep (qs.map fun p => pairChars p.1 p.2) ++ Char.ofNat 93 :: r₂ →
    ps = qs ∧ r₁ = r₂ := by
  intro ps
  induction ps with
  | nil =>
    intro qs r₁ r₂ _ hgq heq
    cases qs with
    | nil =>
      simp only [List.map_nil, joinSep, List.nil_append, List.cons.injEq] at heq
      exact ⟨rfl, heq.2⟩
    | cons q qs' =>
      rw [List.map_cons, joinSep_cons_append] at heq
      simp only [List.map_nil, joinSep, List.nil_append, pairChars,
        List.cons_append, List.cons.injEq] at heq
      exact absurd heq.1 (by decide)
  | cons p ps' ih =>
    intro qs r₁ r₂ hgp hgq heq
    cases qs with
    | nil =>
      rw [List.map_cons, joinSep_cons_append] at heq
      simp only [List.map_nil, joinSep, List.nil_append, pairChars,
        List.cons_append, List.cons.injEq] at heq
      exact absurd heq.1 (by decide)
    | cons q qs' =>
      rw [List.map_cons, joinSep_cons_append, List.map_cons, joinSep_cons_append] at heq
      have hgp1 := hgp p (List.mem_cons_self p ps')
      have hgq1 := hgq q (List.mem_cons_self q qs')
      have hgp' : goodParams ps' := fun kv hkv => hgp kv (List.mem_cons_of_mem p hkv)
      have hgq' : goodParams qs' := fun kv hkv => hgq kv (List.mem_cons_of_mem q hkv)
      have hpair := pairChars_split p.1 q.1 p.2 q.2 _ _ hgp1.1 hgq1.1 hgp1.2 hgq1.2 heq
      have hpq : p = q := Prod.ext hpair.1 hpair.2.1
      cases hps' : ps' with
      | nil =>
        cases hqs' : qs' with
        | nil =>
          subst hps'
          subst hqs'
          have := hpair.2.2
          simp only [List.map_nil, List.cons.injEq] at this
          exact ⟨by rw [hpq], this.2⟩
        | cons q2 qs'' =>
          subst hps'
          subst hqs'
          have := hpair.2.2
          simp only [List.map_nil, List.map_cons, List.cons.injEq] at this
          exact absurd this.1 (by decide)
      | cons p2 ps'' =>
        cases hqs' : qs' with
        | nil =>
          subst hps'
          subst hqs'
          have := hpair.2.2
          simp only [List.map_nil, List.map_cons, List.cons.injEq] at this
          exact absurd this.1 (by decide)
        | cons q2 qs'' =>
          subst hps'
          subst hqs'
          have := hpair.2.2
          simp only [List.map_cons, List.cons.injEq] at this
          have hmain := ih (q2 :: qs'') r₁ r₂ hgp' hgq' (by
            have h2 := this.2.2
            simpa using h2)
          exact ⟨by rw [hpq, hmain.1], hmain.2⟩

theorem goodParams_perm {ps qs : List (String × PyVal)}
    (h : List.Perm ps qs) (hg : goodParams ps) : goodParams qs :=
  fun kv hkv => hg kv (h.mem_iff.mpr hkv)

theorem getCacheKey_inj (e₁ e₂ : String) (p₁ p₂ : List (String × PyVal))
    (hc₁ : Char.ofNat 58 ∉ e₁.data) (hc₂ : Char.ofNat 58 ∉ e₂.data)
    (hg₁ : goodParams p₁) (hg₂ : goodParams p₂)
    (heq : getCacheKey e₁ p₁ = getCacheKey e₂ p₂) :
    e₁ = e₂ ∧ sortParams p₁ = sortParams p₂ := by
  have hdata := congrArg String.data heq
  rw [getCacheKey_data, getCacheKey_data] at hdata
  have hsplit := predSplit (fun c => c ≠ Char.ofNat 58) e₁.data (Char.ofNat 58) _
    e₂.data (Char.ofNat 58) _
    (fun c hc he => hc₁ (he ▸ hc)) (by simp)
    (fun c hc he => hc₂ (he ▸ hc)) (by simp) hdata
  have he : e₁ = e₂ := by
    cases e₁ with
    | mk d₁ =>
      cases e₂ with
      | mk d₂ => exact congrArg String.mk hsplit.1
  have hlist := hsplit.2.2
  simp only [listChars, List.cons.injEq] at hlist
  have hjs : joinSep ((sortParams p₁).map fun p => pairChars p.1 p.2) ++
      Char.ofNat 93 :: ([] : List Char) =
      joinSep ((sortParams p₂).map fun p => pairChars p.1 p.2) ++
      Char.ofNat 93 :: ([] : List Char) := by
    simpa using hlist.2
  have hmain := joinSepPairs_split (sortParams p₁) (sortParams p₂) [] []
    (goodParams_perm (sortParams_perm p₁).symm hg₁)
    (goodParams_perm (sortParams_perm p₂).symm hg₂) hjs
  exact ⟨he, hmain.1⟩

/-- C7: on realistic inputs (endpoints without a colon, parameter keys and
string values over printable non-backslash ASCII, distinct keys — all true
of every call the client makes), two fingerprints coincide exactly when the
endpoint is the same and the parameter key/value sets are equal up to
insertion order: same pairs in any order give the identical key, and any
difference in endpoint or pair set gives different keys. -/
theorem getCacheKey_fingerprint_iff (e₁ e₂ : String) (p₁ p₂ : List (String × PyVal))
    (hc₁ : Char.ofNat 58 ∉ e₁.data) (hc₂ : Char.ofNat 58 ∉ e₂.data)
    (hg₁ : goodParams p₁) (hg₂ : goodParams p₂)
    (hnd₁ : (p₁.map Prod.fst).Nodup) :
    getCacheKey e₁ p₁ = getCacheKey e₂ p₂ ↔ (e₁ = e₂ ∧ List.Perm p₁ p₂) := by
  constructor
  · intro heq
    have hmain := getCacheKey_inj e₁ e₂ p₁ p₂ hc₁ hc₂ hg₁ hg₂ heq
    refine ⟨hmain.1, ?_⟩
    exact (hmain.2 ▸ (sortParams_perm p₁).symm).trans (sortParams_perm p₂)
  · intro ⟨he, hp⟩
    rw [he]
    unfold getCacheKey
    rw [sortParams_eq_of_perm hp hnd₁]

/-- Witness for C7: the same two parameter pairs in either insertion order
produce the identical fingerprint. -/
theorem getCacheKey_fingerprint_iff_witness :
    getCacheKey "/search/movie" [("query", PyVal.str "x"), ("year", PyVal.int 2010)] =
      getCacheKey "/search/movie" [("year", PyVal.int 2010), ("query", PyVal.str "x")] :=
  (getCacheKey_fingerprint_iff "/search/movie" "/search/movie"
    [("query", PyVal.str "x"), ("year", PyVal.int 2010)]
    [("year", PyVal.int 2010), ("query", PyVal.str "x")]
    (by decide) (by decide) (by decide) (by decide) (by decide)).mpr
    ⟨rfl, by decide⟩

/-! ### Claim C8: recommendation reasons -/

theorem strExt {s t : String} (h : s.data = t.data) : s = t := by
  cases s with
  | mk d₁ =>
    cases t with
    | mk d₂ => exact congrArg String.mk h

theorem strInfix_decomp {x pre post s : String} (h : s = pre ++ x ++ post) :
    List.IsInfix x.data s.data :=
  ⟨pre.data, post.data, by rw [h, String.data_append, String.data_append]⟩

theorem reasonFor_no_qualifiers (t : String) (og : List GenreObj) (ci : List ℤ) (v : ℚ)
    (hng : ∀ g ∈ og, g.id ∉ ci) (hv : v < (75:ℚ)/10) :
    reasonFor t og ci v = "Similar to " ++ t := by
  have hfilter : (og.map GenreObj.id).filter (fun i => decide (i ∈ ci)) = [] := by
    rw [List.filter_eq_nil_iff]
    intro a ha
    obtain ⟨g, hg, rfl⟩ := List.mem_map.mp ha
    simpa using hng g hg
  simp only [reasonFor, hfilter, ne_eq, not_true_eq_false, if_false, not_false_eq_true,
    List.nil_append, not_le.mpr hv, if_neg (not_le.mpr hv)]
  simp

theorem reasonFor_shared_struct (t : String) (og : List GenreObj) (ci : List ℤ) (v : ℚ)
    (hsh : ∃ g ∈ og, g.id ∈ ci) :
    reasonFor t og ci v =
      ("Similar to " ++ t ++ " (") ++
      ("shared " ++ joinComma (((og.filter (fun g => g.id ∈
          (og.map GenreObj.id).filter (fun i => i ∈ ci))).map GenreObj.name).take 2)
        ++ " genres") ++
      (if (75:ℚ)/10 ≤ v then ", highly rated)" else ")") := by
  obtain ⟨g, hg, hgc⟩ := hsh
  have hid : g.id ∈ (og.map GenreObj.id).filter (fun i => decide (i ∈ ci)) := by
    rw [List.mem_filter]
    exact ⟨List.mem_map_of_mem _ hg, by simpa using hgc⟩
  have hne : (og.map GenreObj.id).filter (fun i => decide (i ∈ ci)) ≠ [] :=
    List.ne_nil_of_mem hid
  have hgmem : g ∈ og.filter (fun g2 =>
      decide (g2.id ∈ (og.map GenreObj.id).filter (fun i => decide (i ∈ ci)))) := by
    rw [List.mem_filter]
    exact ⟨hg, by simpa using hid⟩
  have hnames : (og.filter (fun g2 =>
      decide (g2.id ∈ (og.map GenreObj.id).filter (fun i => decide (i ∈ ci))))).map
        GenreObj.name ≠ [] :=
    List.ne_nil_of_mem (List.mem_map_of_mem _ hgmem)
  by_cases hv : (75:ℚ)/10 ≤ v
  · simp only [reasonFor, if_pos hne, if_pos hnames, if_pos hv, ne_eq,
      List.cons_append, List.nil_append]
    simp only [joinComma, List.cons_ne_nil, not_false_eq_true, if_true]
    apply strExt
    have hlit : ((", ".data ++ ("highly rated".data ++ ")".data)) : List Char) =
        ", highly rated)".data := by decide
    simp only [String.data_append, List.append_assoc]
    rw [hlit]
  · simp only [reasonFor, if_pos hne, if_pos hnames, if_neg hv, ne_eq,
      List.cons_append, List.nil_append, List.append_nil]
    simp only [joinComma, List.cons_ne_nil, not_false_eq_true, if_true]
    apply strExt
    simp only [String.data_append, List.append_assoc]

theorem reasonFor_highOnly_struct (t : String) (og : List GenreObj) (ci : List ℤ) (v : ℚ)
    (hng : ∀ g ∈ og, g.id ∉ ci) (hv : (75:ℚ)/10 ≤ v) :
    reasonFor t og ci v = ("Similar to " ++ t ++ " (") ++ "highly rated" ++ ")" := by
  have hfilter : (og.map GenreObj.id).filter (fun i => decide (i ∈ ci)) = [] := by
    rw [List.filter_eq_nil_iff]
    intro a ha
    obtain ⟨g, hg, rfl⟩ := List.mem_map.mp ha
    simpa using hng g hg
  simp only [reasonFor, hfilter, ne_eq, not_true_eq_false, if_false, if_pos hv,
    List.nil_append]
  simp only [joinComma, List.cons_ne_nil, not_false_eq_true, if_true]
  apply strExt
  simp only [String.data_append, List.append_assoc]

/-- C8: the per-candidate `reason` of `get_recommendations` (tools.py lines
132-147): exactly `"Similar to {original_title}"` when the candidate shares
no genre id with the source and its rating is below 7.5; a shared-genres
qualifier naming at most 2 shared genre names whenever the genre-id sets
intersect; a `highly rated` qualifier whenever the rating is at least 7.5;
and when both apply, one appended parenthetical with the two qualifiers
comma-joined.  (The parenthetical is absent exactly when no qualifier
applies, by the first conjunct.) -/
theorem reasonFor_spec (t : String) (og : List GenreObj) (ci : List ℤ) (v : ℚ) :
    ((∀ g ∈ og, g.id ∉ ci) → v < (75:ℚ)/10 →
      reasonFor t og ci v = "Similar to " ++ t) ∧
    ((∃ g ∈ og, g.id ∈ ci) → ∃ ns : List String, ns ≠ [] ∧ ns.length ≤ 2 ∧
      (∀ nm ∈ ns, ∃ g ∈ og, g.id ∈ ci ∧ g.name = nm) ∧
      List.IsInfix ("shared " ++ joinComma ns ++ " genres").data
        (reasonFor t og ci v).data) ∧
    ((75:ℚ)/10 ≤ v →
      List.IsInfix "highly rated".data (reasonFor t og ci v).data) ∧
    ((∃ g ∈ og, g.id ∈ ci) → (75:ℚ)/10 ≤ v →
      ∃ ns : List String, reasonFor t og ci v =
        ("Similar to " ++ t ++ " (") ++ ("shared " ++ joinComma ns ++ " genres") ++
          ", highly rated)") := by
  refine ⟨reasonFor_no_qualifiers t og ci v, ?_, ?_, ?_⟩
  · intro hsh
    have hstruct := reasonFor_shared_struct t og ci v hsh
    set names := ((og.filter (fun g => g.id ∈
        (og.map GenreObj.id).filter (fun i => i ∈ ci))).map GenreObj.name) with hnames
    refine ⟨names.take 2, ?_, ?_, ?_, ?_⟩
    · obtain ⟨g, hg, hgc⟩ := hsh
      have hid : g.id ∈ (og.map GenreObj.id).filter (fun i => decide (i ∈ ci)) := by
        rw [List.mem_filter]
        exact ⟨List.mem_map_of_mem _ hg, by simpa using hgc⟩
      have hgmem : g ∈ og.filter (fun g2 =>
          decide (g2.id ∈ (og.map GenreObj.id).filter (fun i => decide (i ∈ ci)))) := by
        rw [List.mem_filter]
        exact ⟨hg, by simpa using hid⟩
      have : g.name ∈ names := List.mem_map_of_mem _ hgmem
      cases hn : names with
      | nil => rw [hn] at this; exact absurd this (List.not_mem_nil _)
      | cons a l => simp
    · calc (names.take 2).length = min 2 names.length := List.length_take 2 names
        _ ≤ 2 := min_le_left _ _
    · intro nm hnm
      have hmem : nm ∈ names := List.take_subset 2 names hnm
      obtain ⟨g, hgf, rfl⟩ := List.mem_map.mp hmem
      have := List.mem_filter.mp hgf
      have hcid := of_decide_eq_true this.2
      have := List.mem_filter.mp hcid
      exact ⟨g, (List.mem_filter.mp hgf).1, by simpa using (List.mem_filter.mp hcid).2, rfl⟩
    · exact strInfix_decomp hstruct
  · intro hv
    by_cases hsh : ∃ g ∈ og, g.id ∈ ci
    · have hstruct := reasonFor_shared_struct t og ci v hsh
      rw [if_pos hv] at hstruct
      have hpost : List.IsInfix "highly rated".data (", highly rated)" : String).data :=
        ⟨", ".data, ")".data, by decide⟩
      have hwhole : List.IsInfix (", highly rated)" : String).data
          (reasonFor t og ci v).data := by
        refine ⟨(("Similar to " ++ t ++ " (") ++ ("shared " ++ joinComma
          (((og.filter (fun g => g.id ∈ (og.map GenreObj.id).filter
            (fun i => i ∈ ci))).map GenreObj.name).take 2) ++ " genres")).data, [], ?_⟩
        rw [List.append_nil, hstruct]
        simp [String.data_append]
      exact hpost.trans hwhole
    · have hng : ∀ g ∈ og, g.id ∉ ci := by
        intro g hg hgc
        exact hsh ⟨g, hg, hgc⟩
      have hstruct := reasonFor_highOnly_struct t og ci v hng hv
      exact strInfix_decomp hstruct
  · intro hsh hv
    have hstruct := reasonFor_shared_struct t og ci v hsh
    rw [if_pos hv] at hstruct
    exact ⟨_, hstruct⟩

theorem reasonFor_spec_witness :
    (∃ g ∈ ([⟨28, "Action"⟩] : List GenreObj), g.id ∈ ([28] : List ℤ)) ∧
    (∃ ns : List String,
      reasonFor "Inception" [⟨28, "Action"⟩] [28] ((81:ℚ)/10) =
        ("Similar to " ++ "Inception" ++ " (") ++
          ("shared " ++ joinComma ns ++ " genres") ++ ", highly rated)") ∧
    reasonFor "Inception" [⟨28, "Action"⟩] [28] ((81:ℚ)/10) =
      "Similar to Inception (shared Action genres, highly rated)" :=
  ⟨⟨⟨28, "Action"⟩, by decide, by decide⟩,
   (reasonFor_spec "Inception" [⟨28, "Action"⟩] [28] ((81:ℚ)/10)).2.2.2
     ⟨⟨28, "Action"⟩, by decide, by decide⟩ (by decide),
   by decide⟩

/-! ### Claim C9: missing "results" key -/

theorem getResults_missing (kvs : List (String × Json))
    (hmiss : kvs.lookup "results" = none) :
    getResults (.ok (.obj kvs)) = .ok (.arr []) := by
  simp [getResults, jsonGetD, hmiss]

/-- C9: for every successful 2xx response whose parsed JSON object body has
no "results" key, the search, recommendations and discover client
operations each return the empty list (`data.get("results", [])`,
api_client.py lines 156, 167, 194) rather than raising any error. -/
theorem client_ops_missing_results_empty (kvs : List (String × Json))
    (hmiss : kvs.lookup "results" = none) :
    (∀ apiKey tpt query type? year language st tr,
      (request apiKey tpt "GET" ("/search/" ++ searchType type?)
          (searchParams query year language) true st tr).1 = .ok (.obj kvs) →
      (clientSearchTitle apiKey tpt query type? year language st tr).1 = .ok (.arr [])) ∧
    (∀ apiKey tpt id type st tr,
      (request apiKey tpt "GET" (recsEndpoint id type) [] true st tr).1 = .ok (.obj kvs) →
      (clientGetRecommendations apiKey tpt id type st tr).1 = .ok (.arr [])) ∧
    (∀ apiKey tpt type genre year language sortBy st tr ps st' tr',
      discoverParams apiKey tpt type genre year language sortBy st tr =
        (Sum.inr ps, st', tr') →
      (request apiKey tpt "GET" ("/discover/" ++ type) ps true st' tr').1 =
        .ok (.obj kvs) →
      (clientDiscover apiKey tpt type genre year language sortBy st tr).1 =
        .ok (.arr [])) := by
  refine ⟨?_, ?_, ?_⟩
  · intro apiKey tpt query type? year language st tr h
    simp only [clientSearchTitle]
    rw [h]
    exact getResults_missing kvs hmiss
  · intro apiKey tpt id type st tr h
    simp only [clientGetRecommendations]
    rw [h]
    exact getResults_missing kvs hmiss
  · intro apiKey tpt type genre year language sortBy st tr ps st' tr' hps h
    simp only [clientDiscover]
    rw [hps]
    simp only []
    rw [h]
    exact getResults_missing kvs hmiss

/-- Witness for C9: a provider whose 2xx body is an object with no "results"
key yields an empty list from all three operations. -/
theorem client_ops_missing_results_empty_witness :
    (clientSearchTitle "K" (constTransport (.http 200 none (.obj [("page", .num 1)])))
        "q" none none none idleState Trace.empty).1 = .ok (.arr []) ∧
    (clientGetRecommendations "K" (constTransport (.http 200 none (.obj [("page", .num 1)])))
        603 "movie" idleState Trace.empty).1 = .ok (.arr []) ∧
    (clientDiscover "K" (constTransport (.http 200 none (.obj [("page", .num 1)])))
        "movie" none none none none idleState Trace.empty).1 = .ok (.arr []) :=
  ⟨(client_ops_missing_results_empty [("page", .num 1)] rfl).1
      "K" (constTransport (.http 200 none (.obj [("page", .num 1)])))
      "q" none none none idleState Trace.empty rfl,
   (client_ops_missing_results_empty [("page", .num 1)] rfl).2.1
      "K" (constTransport (.http 200 none (.obj [("page", .num 1)])))
      603 "movie" idleState Trace.empty rfl,
   (client_ops_missing_results_empty [("page", .num 1)] rfl).2.2
      "K" (constTransport (.http 200 none (.obj [("page", .num 1)])))
      "movie" none none none none idleState Trace.empty _ _ _ rfl rfl⟩

/-! ### Claim C10: title normalization -/

theorem digitsTail_of_digits : ∀ l : List Char, (∀ c ∈ l, c.isDigit = true) →
    digitsTail l = true := by
  intro l
  induction l with
  | nil => intro _; rfl
  | cons c rest ih =>
    intro h
    have hc := h c (List.mem_cons_self c rest)
    have hcu : c ≠ Char.ofNat 95 := by
      intro he
      rw [he] at hc
      exact absurd hc (by decide)
    rw [digitsTail.eq_def]
    simp only []
    rw [if_neg hcu, hc, Bool.true_and]
    exact ih (fun d hd => h d (List.mem_cons_of_mem c hd))

theorem dropWhile_of_none {p : Char → Bool} : ∀ {l : List Char},
    (∀ c ∈ l, p c = false) → l.dropWhile p = l := by
  intro l h
  cases l with
  | nil => rfl
  | cons c rest =>
    rw [List.dropWhile_cons, h c (List.mem_cons_self c rest)]
    simp

theorem pyIntOfChars_digits {cs : List Char} (hne : cs ≠ [])
    (hds : ∀ c ∈ cs, c.isDigit = true) : ∃ k : ℤ, pyIntOfChars cs = some k := by
  have hnospace : ∀ c ∈ cs,
      (c = Char.ofNat 32 || c = Char.ofNat 9 || c = Char.ofNat 10 || c = Char.ofNat 13) =
        false := by
    intro c hc
    have hd2 := hds c hc
    have f : ∀ (x : Char), x.isDigit = false → decide (c = x) = false := by
      intro x hx
      apply decide_eq_false
      intro he
      rw [he] at hd2
      exact absurd (hd2.symm.trans hx) (by decide)
    show (decide (c = Char.ofNat 32) || decide (c = Char.ofNat 9) ||
      decide (c = Char.ofNat 10) || decide (c = Char.ofNat 13)) = false
    rw [f (Char.ofNat 32) (by decide), f (Char.ofNat 9) (by decide),
      f (Char.ofNat 10) (by decide), f (Char.ofNat 13) (by decide)]
    rfl
  simp only [pyIntOfChars]
  rw [dropWhile_of_none hnospace]
  rw [dropWhile_of_none (fun c hc => hnospace c (List.mem_reverse.mp hc)),
    List.reverse_reverse]
  cases cs with
  | nil => exact absurd rfl hne
  | cons c rest =>
    have hc := hds c (List.mem_cons_self c rest)
    have hm : c ≠ Char.ofNat 45 := by
      intro he
      rw [he] at hc
      exact absurd hc (by decide)
    have hp : c ≠ Char.ofNat 43 := by
      intro he
      rw [he] at hc
      exact absurd hc (by decide)
    simp only []
    rw [if_neg hm, if_neg hp]
    have hrun : digitsRun (c :: rest) = true := by
      rw [digitsRun.eq_def]
      simp only []
      rw [hc, Bool.true_and]
      exact digitsTail_of_digits rest (fun d hd => hds d (List.mem_cons_of_mem c hd))
    rw [if_pos hrun]
    exact ⟨_, rfl⟩

/-- C10 counterexample: an item that *has* an "id" key but whose release
date's first 4 characters are not an int literal makes
`int(release_date[:4])` raise, so normalization fails on an input with an
id — refuting "an item without an id key is the only input on which
normalization fails". -/
theorem formatTitleResult_bad_date_counterexample :
    formatTitleResult ⟨some 1, none, none, some "abcd-ef", none, none, none, none⟩
      "movie" = none ∧
    (⟨some 1, none, none, some "abcd-ef", none, none, none, none⟩ : TitleItem).id =
      some 1 :=
  ⟨rfl, rfl⟩

/-- C10 (amended): for every item with an "id" key whose derived date string
is absent, shorter than 4 characters, or has a 4-character prefix that
parses as an int (`pyIntOfChars`, the model of Python `int` with optional
sign, surrounding whitespace and underscore grouping), normalization
succeeds and substitutes the defaults: title "Unknown" when both title and
name are absent, rating 0, overview "", poster_path passed through (None
when absent), and year None when the date is absent or shorter than 4
characters.  Normalization fails on every item without an "id" key, and on
every item whose date string has length at least 4 but whose 4-character
prefix does not parse as an int (`int(release_date[:4])` raises
`ValueError`, tools.py line 74). -/
theorem formatTitleResult_defaults (item : TitleItem) (type : String) :
    (∀ i : ℤ, item.id = some i →
      ((dateOf item.releaseDate item.firstAirDate).length < 4 ∨
        ∃ k : ℤ, pyIntOfChars ((dateOf item.releaseDate item.firstAirDate).data.take 4) =
          some k) →
      ∃ out : NormalizedTitle, formatTitleResult item type = some out ∧
        out.id = i ∧ out.type = type ∧
        (item.title = none → item.name = none → out.title = "Unknown") ∧
        (item.voteAverage = none → out.rating = 0) ∧
        (item.overview = none → out.overview = "") ∧
        out.posterPath = item.posterPath ∧
        ((dateOf item.releaseDate item.firstAirDate).length < 4 → out.year = none)) ∧
    (item.id = none → formatTitleResult item type = none) ∧
    (4 ≤ (dateOf item.releaseDate item.firstAirDate).length →
      pyIntOfChars ((dateOf item.releaseDate item.firstAirDate).data.take 4) = none →
      formatTitleResult item type = none) := by
  have hlen_ne : 4 ≤ (dateOf item.releaseDate item.firstAirDate).length →
      dateOf item.releaseDate item.firstAirDate ≠ "" := by
    intro hlen he
    rw [he] at hlen
    simp at hlen
  refine ⟨?_, ?_, ?_⟩
  · intro i hid hdate
    by_cases hlen : 4 ≤ (dateOf item.releaseDate item.firstAirDate).length
    · obtain ⟨k, hk⟩ : ∃ k : ℤ,
          pyIntOfChars ((dateOf item.releaseDate item.firstAirDate).data.take 4) =
            some k := by
        rcases hdate with h | h
        · omega
        · exact h
      simp only [formatTitleResult, if_pos (And.intro (hlen_ne hlen) hlen), hk, hid]
      refine ⟨_, rfl, rfl, rfl, ?_, ?_, ?_, rfl, ?_⟩
      · intro h1 h2
        simp [origTitleOf, h1, h2]
      · intro h
        simp [h]
      · intro h
        simp [h]
      · intro h
        omega
    · have hcond : ¬ (dateOf item.releaseDate item.firstAirDate ≠ "" ∧
          4 ≤ (dateOf item.releaseDate item.firstAirDate).length) :=
        fun h => hlen h.2
      simp only [formatTitleResult, if_neg hcond, hid]
      refine ⟨_, rfl, rfl, rfl, ?_, ?_, ?_, rfl, fun _ => rfl⟩
      · intro h1 h2
        simp [origTitleOf, h1, h2]
      · intro h
        simp [h]
      · intro h
        simp [h]
  · intro hid
    by_cases hcond : (dateOf item.releaseDate item.firstAirDate ≠ "" ∧
        4 ≤ (dateOf item.releaseDate item.firstAirDate).length)
    · cases hp : pyIntOfChars ((dateOf item.releaseDate item.firstAirDate).data.take 4) with
      | none => simp only [formatTitleResult, if_pos hcond, hp, hid]
      | some k => simp only [formatTitleResult, if_pos hcond, hp, hid]
    · simp only [formatTitleResult, if_neg hcond, hid]
  · intro hlen hparse
    simp only [formatTitleResult, if_pos (And.intro (hlen_ne hlen) hlen), hparse]

/-- Witness for C10 (amended): a sparse item whose date prefix "+201"
parses as a (signed) int normalizes to the defaults; an item without an id
fails; an item with an id but an unparseable 4-character date prefix
fails. -/
theorem formatTitleResult_defaults_witness :
    (∃ out : NormalizedTitle,
      formatTitleResult ⟨some 7, none, none, some "+201-01-01", none, none, none, none⟩
        "movie" = some out ∧
      out.id = 7 ∧ out.type = "movie" ∧
      ((⟨some 7, none, none, some "+201-01-01", none, none, none, none⟩ : TitleItem).title
          = none →
        (⟨some 7, none, none, some "+201-01-01", none, none, none, none⟩ : TitleItem).name
          = none → out.title = "Unknown") ∧
      ((⟨some 7, none, none, some "+201-01-01", none, none, none, none⟩ : TitleItem).voteAverage
          = none → out.rating = 0) ∧
      ((⟨some 7, none, none, some "+201-01-01", none, none, none, none⟩ : TitleItem).overview
          = none → out.overview = "") ∧
      out.posterPath =
        (⟨some 7, none, none, some "+201-01-01", none, none, none,
          none⟩ : TitleItem).posterPath ∧
      ((dateOf (some "+201-01-01") none).length < 4 → out.year = none)) ∧
    formatTitleResult ⟨none, some "T", none, some "2010-07-16", none, none, none, none⟩
      "movie" = none ∧
    formatTitleResult ⟨some 9, none, none, some "x1y2-01-01", none, none, none, none⟩
      "movie" = none :=
  ⟨(formatTitleResult_defaults
      ⟨some 7, none, none, some "+201-01-01", none, none, none, none⟩ "movie").1
      7 rfl (Or.inr ⟨201, by decide⟩),
   (formatTitleResult_defaults
      ⟨none, some "T", none, some "2010-07-16", none, none, none, none⟩ "movie").2.1 rfl,
   (formatTitleResult_defaults
      ⟨some 9, none, none, some "x1y2-01-01", none, none, none, none⟩ "movie").2.2
      (by decide) (by decide)⟩
